import Mathlib

/-!
# Deadline budgeting and latency decomposition of the Step Functions test harness

Shallow embedding of

* `src/cmd/api/main.go` (`clampInt`, `effectiveTimeout`, `handler`),
* `src/cmd/dispatcher/main.go` (`handler`),
* `src/cmd/worker/main.go` (`handler`, `performConditionalUpdate`,
  `parseInt64OrZero`, `queueNameFromArn`),
* `src/stepfunctions_test.go` (the measuring loop, the warm loop and the report
  rows of `TestStepFunctionsFlowLatency`, `formatMarkdownTable`, `padCell`,
  `nanosToMs`).

Go's `int`, `int64` and `time.Duration` are 64-bit two's complement integers.
They are embedded as `Int`; every arithmetic operation of the source that can
leave the 64-bit range is followed by `wrap64`, and `/` on integers is Go's
truncating division (`Int.tdiv`).
-/

namespace StepFn

/-! ## 64-bit integers and `time.Duration` -/

/-- Smallest `int64` (also `time.minDuration`). -/
def minInt64 : Int := -9223372036854775808

/-- Largest `int64` (also `time.maxDuration`). -/
def maxInt64 : Int := 9223372036854775807

/-- Membership in the `int64` range. -/
def isInt64 (x : Int) : Prop := minInt64 ≤ x ∧ x ≤ maxInt64

instance (x : Int) : Decidable (isInt64 x) := by
  unfold isInt64; exact inferInstance

/-- Two's complement reduction of a mathematical integer to `int64`. -/
def wrap64 (x : Int) : Int := (x + 9223372036854775808) % 18446744073709551616 - 9223372036854775808

/-- Go constant `time.Millisecond`, in nanoseconds. -/
def Millisecond : Int := 1000000

/-- Go constant `time.Second`, in nanoseconds. -/
def Second : Int := 1000000000

/-- Instants are nanosecond counts on an unbounded axis (`time.Time` covers far
more than the `int64` nanosecond range). `timeSub t u` is `t.Sub(u)`: the
difference as a `Duration`, saturated at `minDuration` / `maxDuration`. -/
def timeSub (t u : Int) : Int :=
  if t - u < minInt64 then minInt64
  else if t - u > maxInt64 then maxInt64
  else t - u

/-- Go `time.Until(t)` evaluated when the clock reads `now`. -/
def timeUntil (t now : Int) : Int := timeSub t now

/-- The instant of Go's zero `time.Time{}` (January 1 of year 1, UTC) in Unix
nanoseconds: `time.Time{}.Unix()` is -62135596800. -/
def zeroTimeUnixNano : Int := -62135596800000000000

/-- A clock reading used in the concrete evaluations: Unix second 1800000000
(January 2027), in nanoseconds. -/
def sampleNowUnixNano : Int := 1800000000000000000

/-! ## `src/cmd/api/main.go` -/

namespace Api

/-- Go `clampInt(v, minV, maxV)`. -/
def clampInt (v minV maxV : Int) : Int :=
  if v < minV then minV
  else if v > maxV then maxV
  else v

/-- The two clamping statements at the head of `effectiveTimeout`
(lines 86-91): non-positive requests become 25s, requests above 28s become 28s. -/
def clampRequested (requested : Int) : Int :=
  let requested := if requested ≤ 0 then 25 * Second else requested
  if requested > 28 * Second then 28 * Second else requested

/-- Go `effectiveTimeout(ctx, requested)`. The context is represented by what
the function reads from it: `ctxDeadline` is the result of `ctx.Deadline()`
(`none` when `ok` is false) and `now` is the instant `time.Until` reads. -/
def effectiveTimeout (ctxDeadline : Option Int) (now : Int) (requested : Int) : Int :=
  let requested := clampRequested requested
  match ctxDeadline with
  | none => requested
  | some deadline =>
    let remaining := wrap64 (timeUntil deadline now - 250 * Millisecond)
    if remaining ≤ 0 then 0
    else if remaining < requested then remaining
    else requested

end Api

/-- Go `unicode.IsSpace`: the code points with the Unicode White_Space property. -/
def isSpace (c : Char) : Bool :=
  let n := c.toNat
  (9 ≤ n && n ≤ 13) || n == 32 || n == 133 || n == 160 || n == 5760 ||
  (8192 ≤ n && n ≤ 8202) || n == 8232 || n == 8233 || n == 8239 || n == 8287 || n == 12288

/-- Go `strings.TrimSpace`: leading and trailing white space removed. -/
def TrimSpace (s : String) : String :=
  String.mk ((s.toList.dropWhile isSpace).reverse.dropWhile isSpace).reverse

namespace Api

/-- Go `apiRequest`; the defaults are the zero values `json.Unmarshal` leaves
for absent fields. The `int` fields are 64-bit. -/
structure apiRequest where
  RunID : String := ""
  DelaySeconds : Int := 0
  MessageBodyBytes : Int := 0
  MaxWaitMs : Int := 0
  deriving DecidableEq, Repr

/-- Go `apiResponse`. `Output` is the `json.RawMessage` (`none` when nil). -/
structure apiResponse where
  ExecutionArn : String := ""
  Status : String
  TotalMs : Int := 0
  Output : Option String := none
  Error : String := ""
  deriving DecidableEq, Repr

/-- The part of `events.APIGatewayProxyResponse` that `jsonResp` fills in. The
body is kept as the value handed to `json.Marshal`; its rendering to text is
not part of the model, nor is the empty text that results when `json.Marshal`
fails (an `Output` that is not valid JSON), whose error `jsonResp` drops. -/
structure ProxyResponse where
  StatusCode : Int
  Body : apiResponse
  deriving DecidableEq, Repr

/-- The pair `(events.APIGatewayProxyResponse, error)` a handler returns. -/
structure HandlerResult where
  resp : ProxyResponse
  err : Option String
  deriving DecidableEq, Repr

/-- Go `jsonResp(status, v)`: the status code and the value that is marshalled
into the body; the error component is always nil. -/
def jsonResp (status : Int) (v : apiResponse) : HandlerResult :=
  { resp := { StatusCode := status, Body := v }, err := none }

/-- An error returned by a Step Functions client call: its text and whether
`errors.Is(err, context.DeadlineExceeded) || errors.Is(err, context.Canceled)`. -/
structure CallError where
  msg : String
  isContextError : Bool
  deriving DecidableEq, Repr

/-- The fields of `sfn.DescribeExecutionOutput` the handler reads. The pointer
fields are `none` when nil. -/
structure DescribeExecutionOutput where
  Status : String
  Output : Option String := none
  Cause : Option String := none
  Error : Option String := none
  deriving DecidableEq, Repr

/-- The map marshalled into `StartExecutionInput.Input`. -/
structure ExecutionInput where
  runId : String
  delaySeconds : Int
  messageBodyBytes : Int
  deriving DecidableEq, Repr

/-- Calls the API handler makes on its collaborators, in program order. -/
inductive Call where
  | WithTimeout (timeout : Int)
  | StartExecution (stateMachineArn : String) (input : ExecutionInput)
  | DescribeExecution (executionArn : String)
  | Sleep (d : Int)
  deriving DecidableEq, Repr

/-- Everything outside the handler: process state, environment, the ambient
context, clock readings and the scripted answers of the execution engine.
`describeExecution k`, `callCtxErr k` and `elapsedMs k` are what the k-th
iteration of the polling loop observes. -/
structure ApiEnv where
  initErr : Option String
  STATE_MACHINE_ARN : String
  ctxDeadline : Option Int
  now : Int
  unixNano : Int
  unmarshal : String → Except String apiRequest
  startExecution : Except CallError (Option String)
  describeExecution : Nat → Except String DescribeExecutionOutput
  callCtxErr : Nat → Option String
  elapsedMs : Nat → Int

/-- Go `aws.ToString`: the empty string for a nil pointer. -/
def awsToString (p : Option String) : String := p.getD ""

/-- The polling loop of `handler` (lines 170-201), started at iteration `k`
with the calls made so far in `tr`. `fuel` bounds the number of iterations;
`none` means the loop was still running when the fuel ran out. -/
def pollLoop (env : ApiEnv) (execArn : String) :
    Nat → Nat → List Call → Option (HandlerResult × List Call)
  | 0, _, _ => none
  | fuel + 1, k, tr =>
    match env.callCtxErr k with
    | some e =>
      some (jsonResp 504 { ExecutionArn := execArn, TotalMs := env.elapsedMs k,
                           Status := "TIMEOUT", Error := e }, tr)
    | none =>
      let tr := tr ++ [Call.DescribeExecution execArn]
      match env.describeExecution k with
      | .error err =>
        some (jsonResp 502 { ExecutionArn := execArn, TotalMs := env.elapsedMs k,
                             Status := "ERROR", Error := "describe execution: " ++ err }, tr)
      | .ok desc =>
        let s := desc.Status
        if s = "SUCCEEDED" then
          some (jsonResp 200 { ExecutionArn := execArn, TotalMs := env.elapsedMs k,
                               Status := s, Output := desc.Output }, tr)
        else if s = "FAILED" ∨ s = "ABORTED" ∨ s = "TIMED_OUT" then
          let msg := awsToString desc.Cause
          let msg := if msg = "" then awsToString desc.Error else msg
          some (jsonResp 500 { ExecutionArn := execArn, TotalMs := env.elapsedMs k,
                               Status := s, Error := msg }, tr)
        else
          pollLoop env execArn fuel (k + 1) (tr ++ [Call.Sleep (50 * Millisecond)])

/-- The wait budget `handler` computes in lines 133-137 for a decoded body. -/
def maxWaitOf (env : ApiEnv) (body : apiRequest) : Int :=
  let maxWait := 25 * Second
  let maxWait := if body.MaxWaitMs > 0 then wrap64 (body.MaxWaitMs * Millisecond) else maxWait
  effectiveTimeout env.ctxDeadline env.now maxWait

/-- Go `handler(ctx, req)` of the API function, for the request body `reqBody`.
The result is the returned pair together with the collaborator calls made. -/
def handler (env : ApiEnv) (reqBody : String) (fuel : Nat) :
    Option (HandlerResult × List Call) :=
  match env.initErr with
  | some e => some (jsonResp 500 { Status := "ERROR", Error := e }, [])
  | none =>
    let smArn := TrimSpace env.STATE_MACHINE_ARN
    if smArn = "" then
      some (jsonResp 500 { Status := "ERROR", Error := "missing env STATE_MACHINE_ARN" }, [])
    else
      let parsed : Except String apiRequest :=
        if TrimSpace reqBody ≠ "" then env.unmarshal reqBody else .ok {}
      match parsed with
      | .error err =>
        some (jsonResp 400 { Status := "ERROR", Error := "invalid json body: " ++ err }, [])
      | .ok body =>
        let RunID := if TrimSpace body.RunID = "" then "run-" ++ toString env.unixNano
                     else body.RunID
        let DelaySeconds := clampInt body.DelaySeconds 0 900
        let MessageBodyBytes := if body.MessageBodyBytes < 0 then 0 else body.MessageBodyBytes
        let maxWait := maxWaitOf env body
        if maxWait ≤ 0 then
          some (jsonResp 504 { Status := "TIMEOUT", Error := "deadline too close" }, [])
        else
          let tr := [Call.WithTimeout maxWait,
                     Call.StartExecution smArn
                       { runId := RunID, delaySeconds := DelaySeconds,
                         messageBodyBytes := MessageBodyBytes }]
          match env.startExecution with
          | .error e =>
            if e.isContextError then
              some (jsonResp 504 { Status := "TIMEOUT", Error := e.msg }, tr)
            else
              some (jsonResp 502 { Status := "ERROR", Error := "start execution: " ++ e.msg }, tr)
          | .ok arnPtr =>
            let execArn := awsToString arnPtr
            if execArn = "" then
              some (jsonResp 502 { Status := "ERROR", Error := "missing executionArn" }, tr)
            else
              pollLoop env execArn fuel 0 tr

/-- A run of the API function whose ambient context carries the zero
`time.Time` as deadline (as `context.WithDeadline(parent, time.Time{})` gives):
client initialised, state machine configured, the engine answering the start
call with the context error. -/
def zeroDeadlineEnv : ApiEnv :=
  { initErr := none
    STATE_MACHINE_ARN := "arn:aws:states:sm"
    ctxDeadline := some zeroTimeUnixNano
    now := sampleNowUnixNano
    unixNano := sampleNowUnixNano
    unmarshal := fun _ => .error "not called"
    startExecution := .error { msg := "context deadline exceeded", isContextError := true }
    describeExecution := fun _ => .error "not called"
    callCtxErr := fun _ => none
    elapsedMs := fun _ => 0 }

/-- The request body of the overflow evaluation, `maxWaitMs` just above
`maxInt64 / 1000000`. -/
def hugeMaxWaitBody : String := "\x7b\"runId\":\"r1\",\"maxWaitMs\":9223372036855\x7d"

/-- A run of the API function without ambient deadline in which
`json.Unmarshal` decodes `hugeMaxWaitBody` and the execution succeeds at the
first status query. -/
def hugeMaxWaitEnv : ApiEnv :=
  { initErr := none
    STATE_MACHINE_ARN := "arn:aws:states:sm"
    ctxDeadline := none
    now := sampleNowUnixNano
    unixNano := sampleNowUnixNano
    unmarshal := fun b =>
      if b = hugeMaxWaitBody then .ok { RunID := "r1", MaxWaitMs := 9223372036855 }
      else .error "unexpected body"
    startExecution := .ok (some "arn:aws:states:exec")
    describeExecution := fun _ => .ok { Status := "SUCCEEDED" }
    callCtxErr := fun _ => none
    elapsedMs := fun _ => 7 }

end Api

/-! ## `src/cmd/dispatcher/main.go` -/

namespace Dispatcher

/-- The anonymous struct type of `Request.Input`. -/
structure RequestInput where
  RunID : String := ""
  DelaySeconds : Int := 0
  MessageBodyBytes : Int := 0
  deriving DecidableEq, Repr

/-- Go `Request`. -/
structure Request where
  TaskToken : String := ""
  Input : RequestInput := {}
  deriving DecidableEq, Repr

/-- Go `Response`; the fields `handler` does not set keep their zero value. -/
structure Response where
  QueueName : String := ""
  Region : String := ""
  RunID : String := ""
  ID : String := ""
  SendUnixNano : Int := 0
  SendStartUnixNano : Int := 0
  SendEndUnixNano : Int := 0
  ReceiveUnixNano : Int := 0
  WorkerDoneUnixNano : Int := 0
  CallbackRequestUnixNano : Int := 0
  SqsSentTimestampMs : Int := 0
  SqsFirstReceiveTimestampMs : Int := 0
  SqsApproxReceiveCount : Int := 0
  deriving DecidableEq, Repr

/-- Go `msgBody`. -/
structure msgBody where
  ID : String
  SendUnixNano : Int
  SendStartUnixNano : Int
  RunID : String
  TaskToken : String
  Padding : String
  deriving DecidableEq, Repr

/-- The `sqs.SendMessageInput` the handler builds; the body is kept as the
value handed to `json.Marshal`, `DelaySeconds` is an `int32`. -/
structure SendMessageInput where
  QueueUrl : String
  MessageBody : msgBody
  DelaySeconds : Int
  deriving DecidableEq, Repr

/-- Go conversion `int32(x)` of an `int`. -/
def toInt32 (x : Int) : Int := (x + 2147483648) % 4294967296 - 2147483648

/-- Go `makePadding(extraBytes)`. -/
def makePadding (extraBytes : Int) : String :=
  if extraBytes ≤ 0 then "" else String.mk (List.replicate extraBytes.toNat 'x')

/-- Go `queueNameFromURL`, with `path.Base` of the standard library supplied
by the caller. -/
def queueNameFromURL (pathBase : String → String) (queueURL : String) : String :=
  pathBase (String.mk (queueURL.toList.takeWhile (fun c => c != '?')))

/-- Everything outside the dispatcher handler: environment, process state,
the two `randHex` draws, the three clock readings and the answer of
`SendMessage` (`none` for success). -/
structure Env where
  REQUEST_QUEUE_URL : String
  initErr : Option String
  Region : String
  pathBase : String → String
  randHex12 : String
  randHex16 : String
  sendUnixNano : Int
  sendStart : Int
  sendEnd : Int
  sendMessageErr : Option String

/-- The clamping of `req.Input.DelaySeconds` in `handler` (lines 99-104). -/
def clampDelaySeconds (d : Int) : Int :=
  let d := if d < 0 then 0 else d
  if d > 900 then 900 else d

/-- Go `handler(ctx, req)` of the dispatcher: the returned pair as an
`Except`, together with the `SendMessage` calls made. -/
def handler (env : Env) (req : Request) : Except String Response × List SendMessageInput :=
  let requestQueueURL := env.REQUEST_QUEUE_URL
  if requestQueueURL = "" then (.error "missing env REQUEST_QUEUE_URL", [])
  else match env.initErr with
  | some e => (.error e, [])
  | none =>
    if TrimSpace req.TaskToken = "" then (.error "missing taskToken in request", [])
    else
      let DelaySeconds := clampDelaySeconds req.Input.DelaySeconds
      let MessageBodyBytes :=
        if req.Input.MessageBodyBytes < 0 then 0 else req.Input.MessageBodyBytes
      let RunID := if TrimSpace req.Input.RunID = "" then env.randHex12 else req.Input.RunID
      let qn := queueNameFromURL env.pathBase requestQueueURL
      let messageID := env.randHex16
      let bodyObj : msgBody :=
        { ID := messageID, SendUnixNano := env.sendUnixNano,
          SendStartUnixNano := env.sendStart, RunID := RunID,
          TaskToken := req.TaskToken, Padding := makePadding MessageBodyBytes }
      let sent : List SendMessageInput :=
        [{ QueueUrl := requestQueueURL, MessageBody := bodyObj,
           DelaySeconds := toInt32 DelaySeconds }]
      match env.sendMessageErr with
      | some e => (.error ("send message: " ++ e), sent)
      | none =>
        (.ok { QueueName := qn, Region := env.Region, RunID := RunID, ID := messageID,
               SendUnixNano := env.sendUnixNano, SendStartUnixNano := env.sendStart,
               SendEndUnixNano := env.sendEnd }, sent)

end Dispatcher

/-! ## `src/stepfunctions_test.go` -/

namespace Harness

/-- Go `execOutput`, the Timestamp Set decoded from the execution output. -/
structure execOutput where
  ID : String := ""
  RunID : String := ""
  QueueName : String := ""
  SendUnixNano : Int := 0
  SendStartUnixNano : Int := 0
  ReceiveUnixNano : Int := 0
  WorkerDoneUnixNano : Int := 0
  CallbackRequestUnixNano : Int := 0
  SqsSentTimestampMs : Int := 0
  SqsFirstReceiveTimestampMs : Int := 0
  SqsApproxReceiveCount : Int := 0
  Region : String := ""
  deriving DecidableEq, Repr

/-- Go `iterMetric`, the Metric Row of one iteration. -/
structure iterMetric where
  Iter : Int := 0
  TotalMs : Int := 0
  SendToSqsMs : Int := 0
  SqsWaitMs : Int := 0
  WorkerMs : Int := 0
  OverheadMs : Int := 0
  WallMs : Int := 0
  ApiLambdaMs : Int := 0
  deriving DecidableEq, Repr

/-- Go `nanosToMs(n)`: truncating division by `int64(time.Millisecond)`. -/
def nanosToMs (n : Int) : Int := Int.tdiv n Millisecond

/-- Go `Duration.Milliseconds()`. -/
def durationMilliseconds (d : Int) : Int := Int.tdiv d 1000000

/-- Line 192: `output.SqsSentTimestampMs * int64(time.Millisecond)`. -/
def sqsSentUnixNano (output : execOutput) : Int :=
  wrap64 (output.SqsSentTimestampMs * Millisecond)

/-- Lines 194-200: the submit-to-enqueue segment. -/
def sendToSqsMs (output : execOutput) : Int :=
  if output.SendStartUnixNano > 0 ∧ sqsSentUnixNano output > 0 then
    let v := nanosToMs (wrap64 (sqsSentUnixNano output - output.SendStartUnixNano))
    if v < 0 then 0 else v
  else 0

/-- Lines 202-214: the queue-residency segment. -/
def sqsWaitMs (output : execOutput) : Int :=
  if output.ReceiveUnixNano > 0 then
    let base := sqsSentUnixNano output
    let base := if base ≤ 0 then output.SendUnixNano else base
    if base > 0 then
      let v := nanosToMs (wrap64 (output.ReceiveUnixNano - base))
      if v < 0 then 0 else v
    else 0
  else 0

/-- Lines 216-222: the worker segment. -/
def workerMs (output : execOutput) : Int :=
  if output.WorkerDoneUnixNano > 0 ∧ output.ReceiveUnixNano > 0 then
    let v := nanosToMs (wrap64 (output.WorkerDoneUnixNano - output.ReceiveUnixNano))
    if v < 0 then 0 else v
  else 0

/-- Lines 174-181: the total of the iteration, the reported total when it is
positive and the wall-clock total otherwise. `wall` is `time.Since(startWall)`. -/
def latencyMs (apiTotalMs wall : Int) : Int :=
  if apiTotalMs ≤ 0 then durationMilliseconds wall else apiTotalMs

/-- Lines 224-227: the residual segment. -/
def overheadMs (apiTotalMs wall : Int) (output : execOutput) : Int :=
  let v := wrap64 (latencyMs apiTotalMs wall -
    wrap64 (wrap64 (sendToSqsMs output + sqsWaitMs output) + workerMs output))
  if v < 0 then 0 else v

/-- Lines 174-243: the Metric Row appended for loop index `i`, from the
reported total `apiOut.TotalMs`, the wall-clock duration and the decoded
Timestamp Set. -/
def decompose (i : Int) (apiTotalMs wall : Int) (output : execOutput) : iterMetric :=
  { Iter := i + 1,
    TotalMs := latencyMs apiTotalMs wall,
    SendToSqsMs := sendToSqsMs output,
    SqsWaitMs := sqsWaitMs output,
    WorkerMs := workerMs output,
    OverheadMs := overheadMs apiTotalMs wall output,
    WallMs := durationMilliseconds wall,
    ApiLambdaMs := apiTotalMs }

/-- A Timestamp Set with simulated skew: the sender's clock runs two seconds
ahead of the queue and the worker, and the queue supplied its sent timestamp. -/
def skewedWithQueueStamp : execOutput :=
  { SendUnixNano := 1800000002000000000
    SendStartUnixNano := 1800000002000000100
    ReceiveUnixNano := 1800000000500000000
    WorkerDoneUnixNano := 1800000000501000000
    SqsSentTimestampMs := 1800000000000 }

/-- The same skewed Timestamp Set without the queue-sent timestamp. -/
def skewedWithoutQueueStamp : execOutput :=
  { SendUnixNano := 1800000002000000000
    SendStartUnixNano := 1800000002000000100
    ReceiveUnixNano := 1800000000500000000
    WorkerDoneUnixNano := 1800000000501000000 }

/-- The Timestamp Set of Scenario C: send start at 1000 ns; the instant
1000 + 5,000,000 ns has the millisecond timestamp 5. -/
def scenarioC : execOutput :=
  { SendStartUnixNano := 1000, SqsSentTimestampMs := 5 }

end Harness

namespace Api

/-- A run whose execution is reported RUNNING by the first two status queries
and FAILED with cause "boom" by the third. -/
def boomEnv : ApiEnv :=
  { initErr := none
    STATE_MACHINE_ARN := "arn:aws:states:sm"
    ctxDeadline := none
    now := sampleNowUnixNano
    unixNano := sampleNowUnixNano
    unmarshal := fun _ => .error "not called"
    startExecution := .ok (some "arn:aws:states:exec")
    describeExecution := fun k =>
      if k < 2 then .ok { Status := "RUNNING" }
      else .ok { Status := "FAILED", Cause := some "boom", Error := some "States.TaskFailed" }
    callCtxErr := fun _ => none
    elapsedMs := fun k => 60 * (k + 1) }

/-- The calls of `n` polling iterations that find the execution still running. -/
def runningPolls (execArn : String) (n : Nat) : List Call :=
  (List.replicate n [Call.DescribeExecution execArn, Call.Sleep (50 * Millisecond)]).flatten

/-- The error message the spec prescribes for a terminal failure: the cause
when present and not empty, else the error field, else the empty string. -/
def failureMessage (cause error : Option String) : String :=
  match cause with
  | some c => if c = "" then error.getD "" else c
  | none => error.getD ""

/-- The two calls the handler makes before polling (lines 142-155): deriving the
call context with the budget and starting the execution. -/
def startCalls (env : ApiEnv) (body : apiRequest) : List Call :=
  [Call.WithTimeout (maxWaitOf env body),
   Call.StartExecution (TrimSpace env.STATE_MACHINE_ARN)
     { runId := if TrimSpace body.RunID = "" then "run-" ++ toString env.unixNano
                else body.RunID,
       delaySeconds := clampInt body.DelaySeconds 0 900,
       messageBodyBytes := if body.MessageBodyBytes < 0 then 0 else body.MessageBodyBytes }]

end Api

/-! ## `src/cmd/worker/main.go` -/

namespace Worker

/-- Go `msgBody` of the worker; the defaults are the zero values
`json.Unmarshal` leaves for absent fields. -/
structure msgBody where
  ID : String := ""
  SendUnixNano : Int := 0
  SendStartUnixNano : Int := 0
  RunID : String := ""
  TaskToken : String := ""
  deriving DecidableEq, Repr

/-- Go `callbackOutput`, the Timestamp Set handed to the continuation. -/
structure callbackOutput where
  ID : String := ""
  RunID : String := ""
  QueueName : String := ""
  Region : String := ""
  SendUnixNano : Int := 0
  SendStartUnixNano : Int := 0
  ReceiveUnixNano : Int := 0
  WorkerDoneUnixNano : Int := 0
  CallbackRequestUnixNano : Int := 0
  SqsSentTimestampMs : Int := 0
  SqsFirstReceiveTimestampMs : Int := 0
  SqsApproxReceiveCount : Int := 0
  deriving DecidableEq, Repr

/-- The fields of `events.SQSMessage` the handler reads; `Attributes` is the
string map as a list of key and value pairs. -/
structure SQSMessage where
  Body : String := ""
  EventSourceARN : String := ""
  Attributes : List (String × String) := []
  deriving DecidableEq, Repr

/-- Go map lookup `m[key]` on a `map[string]string`: the empty string for an
absent key. -/
def lookup (m : List (String × String)) (key : String) : String :=
  match m.find? (fun kv => kv.1 == key) with
  | some kv => kv.2
  | none => ""

/-- Go `queueNameFromArn`: the last of the parts `strings.Split(arn, ":")`
returns, that is the text after the last colon (`Split` never returns an
empty slice, so the `len(parts) == 0` branch is not taken). -/
def queueNameFromArn (arn : String) : String :=
  String.mk (arn.toList.reverse.takeWhile (fun c => c != ':')).reverse

/-- Go `parseInt64OrZero`, with `strconv.ParseInt(s, 10, 64)` of the standard
library supplied by the caller (`none` for an error). -/
def parseInt64OrZero (parseInt : String → Option Int) (s : String) : Int :=
  if TrimSpace s = "" then 0
  else match parseInt s with
    | some n => n
    | none => 0

/-- The three outcomes of the conditional `UpdateItem` call. -/
inductive UpdateOutcome where
  | applied
  | conditionFailed (msg : String)
  | failed (msg : String)
  deriving DecidableEq, Repr

/-- The `error` that `UpdateItem` returns for an outcome (`none` is nil). -/
def UpdateOutcome.err : UpdateOutcome → Option String
  | .applied => none
  | .conditionFailed msg => some msg
  | .failed msg => some msg

/-- What the worker handler does to the outside, in program order. The
collaborator calls carry the index of the record they were made for. -/
inductive Event where
  | UpdateItem (record : Nat) (tableName id : String) (receiveUnixNano : Int)
  | Log (line : String)
  | SendTaskSuccess (record : Nat) (taskToken : String) (output : callbackOutput)
  deriving DecidableEq, Repr

/-- Everything outside the worker handler: process state, environment, the
decoders of the standard library and, for the record with index `i`, the three
clock readings, the outcome of the conditional update and the error of
`SendTaskSuccess` (`none` for success). -/
structure Env where
  initErr : Option String
  TABLE_NAME : String
  region : String
  unmarshal : String → Except String msgBody
  parseInt : String → Option Int
  receiveUnixNano : Nat → Int
  workerDoneUnixNano : Nat → Int
  callbackRequestUnixNano : Nat → Int
  updateItem : Nat → UpdateOutcome
  sendTaskSuccess : Nat → Option String

/-- Go `performConditionalUpdate` for record `i`: the `UpdateItem` call made
and the error returned. -/
def performConditionalUpdate (env : Env) (i : Nat) (tableName id : String)
    (receiveUnixNano : Int) : Option String × List Event :=
  ((env.updateItem i).err, [Event.UpdateItem i tableName id receiveUnixNano])

/-- The body of the loop of `handler` (lines 90-145) for the record with index
`i`: the error of a `return` inside the body (`none` when the body runs to its
end) and the events of this iteration. `json.Marshal` of a `callbackOutput`
(strings and integers only) returns no error, so the output is kept as the
value handed to it. -/
def processRecord (env : Env) (tableName : String) (i : Nat) (record : SQSMessage) :
    Option String × List Event :=
  let queueName := queueNameFromArn record.EventSourceARN
  match env.unmarshal record.Body with
  | .error e => (some ("unmarshal message body: " ++ e), [])
  | .ok body =>
    if TrimSpace body.ID = "" then (some "missing id in message body", [])
    else if TrimSpace body.TaskToken = "" then (some "missing taskToken in message body", [])
    else
      let receiveUnixNano := env.receiveUnixNano i
      let sqsSentTimestampMs :=
        parseInt64OrZero env.parseInt (lookup record.Attributes "SentTimestamp")
      let sqsFirstReceiveTimestampMs :=
        parseInt64OrZero env.parseInt (lookup record.Attributes "ApproximateFirstReceiveTimestamp")
      let sqsApproxReceiveCount :=
        parseInt64OrZero env.parseInt (lookup record.Attributes "ApproximateReceiveCount")
      let upd := performConditionalUpdate env i tableName body.ID receiveUnixNano
      let logged : List Event :=
        match upd.1 with
        | some e => [Event.Log ("ddb conditional update failed id=" ++ body.ID ++ ": " ++ e)]
        | none => []
      let out : callbackOutput :=
        { ID := body.ID, RunID := body.RunID, QueueName := queueName, Region := env.region,
          SendUnixNano := body.SendUnixNano, SendStartUnixNano := body.SendStartUnixNano,
          ReceiveUnixNano := receiveUnixNano,
          WorkerDoneUnixNano := env.workerDoneUnixNano i,
          CallbackRequestUnixNano := env.callbackRequestUnixNano i,
          SqsSentTimestampMs := sqsSentTimestampMs,
          SqsFirstReceiveTimestampMs := sqsFirstReceiveTimestampMs,
          SqsApproxReceiveCount := sqsApproxReceiveCount }
      let evs := upd.2 ++ logged ++ [Event.SendTaskSuccess i body.TaskToken out]
      match env.sendTaskSuccess i with
      | some e => (some ("send task success: " ++ e), evs)
      | none =>
        (none, evs ++ [Event.Log ("sent task success id=" ++ body.ID ++ " queue=" ++ queueName)])

/-- The loop of `handler` over `event.Records`, the first record having index
`i`: it stops at the first iteration that returns. -/
def processRecords (env : Env) (tableName : String) : List SQSMessage → Nat →
    Option String × List Event
  | [], _ => (none, [])
  | record :: rest, i =>
    match processRecord env tableName i record with
    | (some e, evs) => (some e, evs)
    | (none, evs) =>
      ((processRecords env tableName rest (i + 1)).1,
       evs ++ (processRecords env tableName rest (i + 1)).2)

/-- Go `handler(ctx, event)` of the worker: the returned `error` (`none` is
nil) and the events in program order. -/
def handler (env : Env) (records : List SQSMessage) : Option String × List Event :=
  match env.initErr with
  | some e => (some e, [])
  | none =>
    let tableName := TrimSpace env.TABLE_NAME
    if tableName = "" then (some "missing env TABLE_NAME", [])
    else processRecords env tableName records 0

/-- The number of `UpdateItem` calls made for the record with index `i`. -/
def updatesFor (i : Nat) (tr : List Event) : Nat :=
  (tr.filter (fun e => match e with
    | .UpdateItem j _ _ _ => j == i
    | _ => false)).length

/-- The number of `SendTaskSuccess` calls made for the record with index `i`. -/
def sendsFor (i : Nat) (tr : List Event) : Nat :=
  (tr.filter (fun e => match e with
    | .SendTaskSuccess j _ _ => j == i
    | _ => false)).length

/-- The continuation invocations of a run, in order: record index, token and
payload. -/
def continuations : List Event → List (Nat × String × callbackOutput)
  | [] => []
  | .SendTaskSuccess i tok out :: rest => (i, tok, out) :: continuations rest
  | _ :: rest => continuations rest

/-- A payload without the two instants the handler reads after the conditional
update. -/
def eraseLateInstants (c : Nat × String × callbackOutput) : Nat × String × callbackOutput :=
  (c.1, c.2.1, { c.2.2 with WorkerDoneUnixNano := 0, CallbackRequestUnixNano := 0 })

/-- A message the handler must refuse: its body does not decode, or its id or
its continuation token is empty or white space only. -/
def isFatal (env : Env) (record : SQSMessage) : Prop :=
  match env.unmarshal record.Body with
  | .error _ => True
  | .ok body => TrimSpace body.ID = "" ∨ TrimSpace body.TaskToken = ""

/-- The same surroundings with other outcomes of the conditional update and
other clock readings after it. -/
def withUpdate (env : Env) (u : Nat → UpdateOutcome) (workerDone callbackRequest : Nat → Int) :
    Env :=
  { env with updateItem := u, workerDoneUnixNano := workerDone,
             callbackRequestUnixNano := callbackRequest }

/-- A decoder for the sample messages: the body text "ok" decodes to a full
envelope, "blank-id" and "blank-token" to envelopes with a white-space id or
token, anything else fails. -/
def sampleUnmarshal (s : String) : Except String msgBody :=
  if s = "ok" then
    .ok { ID := "m1", SendUnixNano := 1800000000000000000,
          SendStartUnixNano := 1800000000000000100, RunID := "r1", TaskToken := "tok" }
  else if s = "blank-id" then .ok { ID := "  ", TaskToken := "tok" }
  else if s = "blank-token" then .ok { ID := "m1", TaskToken := "\t" }
  else .error "invalid character"

/-- Sample surroundings: everything initialised, every conditional update
failing its condition check, every continuation call succeeding. -/
def sampleEnv : Env :=
  { initErr := none
    TABLE_NAME := "runs"
    region := "eu-west-1"
    unmarshal := sampleUnmarshal
    parseInt := fun s => if s = "1800000000050" then some 1800000000050 else none
    receiveUnixNano := fun _ => 1800000000200000000
    workerDoneUnixNano := fun _ => 1800000000210000000
    callbackRequestUnixNano := fun _ => 1800000000210000100
    updateItem := fun _ => .conditionFailed "ConditionalCheckFailedException"
    sendTaskSuccess := fun _ => none }

/-- A dequeued message with a well-formed body. -/
def sampleRecord : SQSMessage :=
  { Body := "ok", EventSourceARN := "arn:aws:sqs:eu-west-1:123456789012:requests",
    Attributes := [("SentTimestamp", "1800000000050")] }

end Worker

namespace Harness

/-- Go `apiResponse` of the test file; `Output` is the `json.RawMessage` as
text (empty when absent). -/
structure apiResponse where
  ExecutionArn : String := ""
  Status : String := ""
  TotalMs : Int := 0
  Output : String := ""
  Error : String := ""
  deriving DecidableEq, Repr

/-- What one iteration of the measuring loop observes from outside: the pair
returned by `callRunAPI` (the error, or the decoded response) and the wall
clock duration `time.Since(startWall)`. -/
structure Run where
  call : Except String apiResponse
  wall : Int := 0

/-- The accumulators declared before the loop (lines 122-147), with their
zero values. -/
structure Acc where
  latenciesMs : List Int := []
  sumMs : Int := 0
  minMs : Int := 0
  maxMs : Int := 0
  sumSendMs : Int := 0
  sumSqsWaitMs : Int := 0
  sumWorkerMs : Int := 0
  sumOverheadMs : Int := 0
  metrics : List iterMetric := []
  minSendMs : Int := 0
  maxSendMs : Int := 0
  minSqsWaitMs : Int := 0
  maxSqsWaitMs : Int := 0
  minWorkerMs : Int := 0
  maxWorkerMs : Int := 0
  minOverheadMs : Int := 0
  maxOverheadMs : Int := 0
  deriving DecidableEq, Repr

/-- The text `[i+1/repeat]` of the failure messages. -/
def iterTag (i repeatN : Nat) : String :=
  "[" ++ toString (i + 1) ++ "/" ++ toString repeatN ++ "]"

/-- The body of the measuring loop (lines 150-274) for loop index `i`: the
`t.Fatalf` message when the iteration aborts the test, the updated
accumulators otherwise. `decode` is what `json.Unmarshal` leaves in a zero
`execOutput` for the given output text (its error is ignored by the source). -/
def iteration (decode : String → execOutput) (repeatN i : Nat) (acc : Acc) (run : Run) :
    Except String Acc :=
  match run.call with
  | .error e => .error ("call api " ++ iterTag i repeatN ++ ": " ++ e)
  | .ok apiOut =>
    if apiOut.Status ≠ "SUCCEEDED" then
      .error ("api status not succeeded " ++ iterTag i repeatN ++ ": status=" ++ apiOut.Status
        ++ " error=" ++ apiOut.Error)
    else if apiOut.ExecutionArn = "" then
      .error ("api missing executionArn " ++ iterTag i repeatN)
    else
      let output : execOutput := if apiOut.Output ≠ "" then decode apiOut.Output else {}
      let m := decompose i apiOut.TotalMs run.wall output
      .ok { latenciesMs := acc.latenciesMs ++ [m.TotalMs]
            sumMs := wrap64 (acc.sumMs + m.TotalMs)
            minMs := if i = 0 ∨ m.TotalMs < acc.minMs then m.TotalMs else acc.minMs
            maxMs := if i = 0 ∨ m.TotalMs > acc.maxMs then m.TotalMs else acc.maxMs
            sumSendMs := wrap64 (acc.sumSendMs + m.SendToSqsMs)
            sumSqsWaitMs := wrap64 (acc.sumSqsWaitMs + m.SqsWaitMs)
            sumWorkerMs := wrap64 (acc.sumWorkerMs + m.WorkerMs)
            sumOverheadMs := wrap64 (acc.sumOverheadMs + m.OverheadMs)
            metrics := acc.metrics ++ [m]
            minSendMs := if i = 0 then m.SendToSqsMs
              else if m.SendToSqsMs < acc.minSendMs then m.SendToSqsMs else acc.minSendMs
            maxSendMs := if i = 0 then m.SendToSqsMs
              else if m.SendToSqsMs > acc.maxSendMs then m.SendToSqsMs else acc.maxSendMs
            minSqsWaitMs := if i = 0 then m.SqsWaitMs
              else if m.SqsWaitMs < acc.minSqsWaitMs then m.SqsWaitMs else acc.minSqsWaitMs
            maxSqsWaitMs := if i = 0 then m.SqsWaitMs
              else if m.SqsWaitMs > acc.maxSqsWaitMs then m.SqsWaitMs else acc.maxSqsWaitMs
            minWorkerMs := if i = 0 then m.WorkerMs
              else if m.WorkerMs < acc.minWorkerMs then m.WorkerMs else acc.minWorkerMs
            maxWorkerMs := if i = 0 then m.WorkerMs
              else if m.WorkerMs > acc.maxWorkerMs then m.WorkerMs else acc.maxWorkerMs
            minOverheadMs := if i = 0 then m.OverheadMs
              else if m.OverheadMs < acc.minOverheadMs then m.OverheadMs else acc.minOverheadMs
            maxOverheadMs := if i = 0 then m.OverheadMs
              else if m.OverheadMs > acc.maxOverheadMs then m.OverheadMs else acc.maxOverheadMs }

/-- The measuring loop `for i := 0; i < repeat; i++` over the runs still to
come, the next one having loop index `i`; it stops at the first `t.Fatalf`. -/
def mainLoop (decode : String → execOutput) (repeatN : Nat) :
    List Run → Nat → Acc → Except String Acc
  | [], _, acc => .ok acc
  | run :: rest, i, acc =>
    match iteration decode repeatN i acc run with
    | .error e => .error e
    | .ok acc2 => mainLoop decode repeatN rest (i + 1) acc2

/-- The warm accumulators declared in lines 291-297. `warmCount` cannot
overflow: it is bounded by the length of a slice. -/
structure Warm where
  warmCount : Int := 0
  warmSumTotal : Int := 0
  warmSumSend : Int := 0
  warmSumWait : Int := 0
  warmSumWorker : Int := 0
  warmSumOverhead : Int := 0
  warmMinTotal : Int := 0
  warmMaxTotal : Int := 0
  warmMinSend : Int := 0
  warmMaxSend : Int := 0
  warmMinWait : Int := 0
  warmMaxWait : Int := 0
  warmMinWorker : Int := 0
  warmMaxWorker : Int := 0
  warmMinOverhead : Int := 0
  warmMaxOverhead : Int := 0
  deriving DecidableEq, Repr

/-- The body of the warm loop (lines 300-344) for the row `m`. -/
def warmStep (w : Warm) (m : iterMetric) : Warm :=
  let warmCount := w.warmCount + 1
  let first : Bool := warmCount == 1
  { warmCount := warmCount
    warmSumTotal := wrap64 (w.warmSumTotal + m.TotalMs)
    warmSumSend := wrap64 (w.warmSumSend + m.SendToSqsMs)
    warmSumWait := wrap64 (w.warmSumWait + m.SqsWaitMs)
    warmSumWorker := wrap64 (w.warmSumWorker + m.WorkerMs)
    warmSumOverhead := wrap64 (w.warmSumOverhead + m.OverheadMs)
    warmMinTotal := if first then m.TotalMs
      else if m.TotalMs < w.warmMinTotal then m.TotalMs else w.warmMinTotal
    warmMaxTotal := if first then m.TotalMs
      else if m.TotalMs > w.warmMaxTotal then m.TotalMs else w.warmMaxTotal
    warmMinSend := if first then m.SendToSqsMs
      else if m.SendToSqsMs < w.warmMinSend then m.SendToSqsMs else w.warmMinSend
    warmMaxSend := if first then m.SendToSqsMs
      else if m.SendToSqsMs > w.warmMaxSend then m.SendToSqsMs else w.warmMaxSend
    warmMinWait := if first then m.SqsWaitMs
      else if m.SqsWaitMs < w.warmMinWait then m.SqsWaitMs else w.warmMinWait
    warmMaxWait := if first then m.SqsWaitMs
      else if m.SqsWaitMs > w.warmMaxWait then m.SqsWaitMs else w.warmMaxWait
    warmMinWorker := if first then m.WorkerMs
      else if m.WorkerMs < w.warmMinWorker then m.WorkerMs else w.warmMinWorker
    warmMaxWorker := if first then m.WorkerMs
      else if m.WorkerMs > w.warmMaxWorker then m.WorkerMs else w.warmMaxWorker
    warmMinOverhead := if first then m.OverheadMs
      else if m.OverheadMs < w.warmMinOverhead then m.OverheadMs else w.warmMinOverhead
    warmMaxOverhead := if first then m.OverheadMs
      else if m.OverheadMs > w.warmMaxOverhead then m.OverheadMs else w.warmMaxOverhead }

/-- The warm loop `for i := 1; i < len(metrics); i++` (lines 299-345). -/
def warmStats (metrics : List iterMetric) : Warm :=
  (metrics.drop 1).foldl warmStep {}

/-- Go `fmt.Sprintf("%d", x)`. -/
def fmtD (x : Int) : String := toString x

/-- The eight cells of a row of the breakdown and cold tables (lines 356-365,
375-384). -/
def metricCells (m : iterMetric) : List String :=
  [fmtD m.Iter, fmtD m.TotalMs, fmtD m.SendToSqsMs, fmtD m.SqsWaitMs, fmtD m.WorkerMs,
   fmtD m.OverheadMs, fmtD m.WallMs, fmtD m.ApiLambdaMs]

/-- The rows of the cold table (lines 286-289, 373-385). -/
def coldRows (metrics : List iterMetric) : List (List String) :=
  match metrics with
  | [] => []
  | cold :: _ => [metricCells cold]

/-- The rows of the warm summary (lines 392-407). `fmtAvg sum count` stands for
`fmt.Sprintf("%.3f", float64(sum) / float64(count))`; the floating-point
division and its rendering are supplied by the caller. -/
def summaryRows (fmtAvg : Int → Int → String) (w : Warm) : List (List String) :=
  if w.warmCount > 0 then
    [["avg", fmtAvg w.warmSumTotal w.warmCount, fmtAvg w.warmSumSend w.warmCount,
      fmtAvg w.warmSumWait w.warmCount, fmtAvg w.warmSumWorker w.warmCount,
      fmtAvg w.warmSumOverhead w.warmCount],
     ["min", fmtD w.warmMinTotal, fmtD w.warmMinSend, fmtD w.warmMinWait, fmtD w.warmMinWorker,
      fmtD w.warmMinOverhead],
     ["max", fmtD w.warmMaxTotal, fmtD w.warmMaxSend, fmtD w.warmMaxWait, fmtD w.warmMaxWorker,
      fmtD w.warmMaxOverhead]]
  else
    [["warm", "n/a", "n/a", "n/a", "n/a", "n/a"]]

/-- The rows of the all summary (lines 277-282, 412-416); the denominator is
`len(latenciesMs)`. -/
def allRows (fmtAvg : Int → Int → String) (acc : Acc) : List (List String) :=
  let den : Int := acc.latenciesMs.length
  [["avg", fmtAvg acc.sumMs den, fmtAvg acc.sumSendMs den, fmtAvg acc.sumSqsWaitMs den,
    fmtAvg acc.sumWorkerMs den, fmtAvg acc.sumOverheadMs den],
   ["min", fmtD acc.minMs, fmtD acc.minSendMs, fmtD acc.minSqsWaitMs, fmtD acc.minWorkerMs,
    fmtD acc.minOverheadMs],
   ["max", fmtD acc.maxMs, fmtD acc.maxSendMs, fmtD acc.maxSqsWaitMs, fmtD acc.maxWorkerMs,
    fmtD acc.maxOverheadMs]]

/-- The rows of the four tables of the report. -/
structure Report where
  breakdownRows : List (List String)
  coldRows : List (List String)
  summaryRows : List (List String)
  allRows : List (List String)
  deriving DecidableEq, Repr

/-- Go `TestStepFunctionsFlowLatency` from the measuring loop on (lines
149-417), for the runs the `repeat` iterations observe: the `t.Fatalf` message
of an aborted test, or the rows of the report. -/
def TestStepFunctionsFlowLatency (decode : String → execOutput)
    (fmtAvg : Int → Int → String) (runs : List Run) : Except String Report :=
  match mainLoop decode runs.length runs 0 {} with
  | .error e => .error e
  | .ok acc =>
    .ok { breakdownRows := acc.metrics.map metricCells
          coldRows := coldRows acc.metrics
          summaryRows := summaryRows fmtAvg (warmStats acc.metrics)
          allRows := allRows fmtAvg acc }

/-- A run that reached SUCCEEDED with the given reported total, no output
payload and a wall clock duration of 123ms. -/
def succeededRun (totalMs : Int) : Run :=
  { call := .ok { ExecutionArn := "arn:aws:states:exec", Status := "SUCCEEDED",
                  TotalMs := totalMs },
    wall := 123000000 }

/-- A response with status SUCCEEDED that carries no execution identifier. -/
def succeededWithoutArn : Run :=
  { call := .ok { Status := "SUCCEEDED", TotalMs := 120 }, wall := 123000000 }

/-- A stand-in for the `%.3f` rendering of a quotient in the concrete
evaluations: numerator and denominator, separated by a slash. -/
def sampleFmtAvg (sum count : Int) : String := toString sum ++ "/" ++ toString count


/-- Go `len(s)` of a string: its length in bytes. -/
def len (s : String) : Nat := s.utf8ByteSize

/-- Go `strings.Repeat` of a one-character string. -/
def repeatChar (c : Char) (n : Nat) : String := String.mk (List.replicate n c)

/-- Go `padCell(s, width, right)`. -/
def padCell (s : String) (width : Nat) (right : Bool) : String :=
  if len s ≥ width then s
  else
    let pad := repeatChar ' ' (width - len s)
    if right then pad ++ s else s ++ pad

/-- The inner loop of lines 435-439 for one row: every width that has a cell
in the row is raised to the length of that cell when that is larger. -/
def widenRow : List Nat → List String → List Nat
  | w :: ws, c :: cs => (if len c > w then len c else w) :: widenRow ws cs
  | ws, [] => ws
  | [], _ => []

/-- Lines 429-440: the column widths. -/
def columnWidths (headers : List String) (rows : List (List String)) : List Nat :=
  rows.foldl widenRow (headers.map len)

/-- Lines 445-450: the cells of the header line. -/
def headerCells : List String → List Nat → List Bool → String
  | h :: hs, w :: ws, r :: rs => " " ++ padCell h w r ++ " |" ++ headerCells hs ws rs
  | _, _, _ => ""

/-- Lines 455-472: the cells of the separator line. -/
def separatorCells : List Nat → List Bool → String
  | w :: ws, r :: rs =>
    let n := if w < 3 then 3 else w
    (if r then " " ++ repeatChar '-' (n - 1) ++ ":" ++ " |"
     else " " ++ repeatChar '-' n ++ " |") ++ separatorCells ws rs
  | _, _ => ""

/-- Lines 478-487: the cells of a data line; a row that is too short is filled
with empty cells, cells beyond the last column are dropped. -/
def rowCells : List String → List Nat → List Bool → String
  | cs, w :: ws, r :: rs => " " ++ padCell (cs.headD "") w r ++ " |" ++ rowCells cs.tail ws rs
  | _, _, _ => ""

/-- The header line of the table, without the line break. -/
def headerLine (headers : List String) (rightAlign : List Bool) (rows : List (List String)) :
    String :=
  "|" ++ headerCells headers (columnWidths headers rows) rightAlign

/-- The separator line of the table, without the line break. -/
def separatorLine (headers : List String) (rightAlign : List Bool) (rows : List (List String)) :
    String :=
  "|" ++ separatorCells (columnWidths headers rows) rightAlign

/-- The line of the data row `r`, without the line break. -/
def rowLine (headers : List String) (rightAlign : List Bool) (rows : List (List String))
    (r : List String) : String :=
  "|" ++ rowCells r (columnWidths headers rows) rightAlign

/-- Go `formatMarkdownTable(headers, rightAlign, rows)`; `none` is the
index-out-of-range panic of `rightAlign[i]` when there are fewer alignments
than headers. -/
def formatMarkdownTable (headers : List String) (rightAlign : List Bool)
    (rows : List (List String)) : Option String :=
  if rightAlign.length < headers.length then none
  else
    some (headerLine headers rightAlign rows ++ "\n" ++
      separatorLine headers rightAlign rows ++ "\n" ++
      String.join (rows.map (fun r => rowLine headers rightAlign rows r ++ "\n")))

/-- The sum of the line lengths the columns of the given widths account for:
every column adds its width, two blanks and a bar. -/
def cellsLength (widths : List Nat) : Nat := (widths.map (fun w => w + 3)).sum


/-- What the three accumulators of one field must be for the rows of a group:
`sm` is the 64-bit sum of the field over the rows and, when the group is not
empty, `mn` and `mx` are the least and the greatest value of the field. -/
def StatsOf (f : iterMetric → Int) (mn mx sm : Int) (rows : List iterMetric) : Prop :=
  sm = wrap64 (rows.map f).sum ∧
  (isInt64 (rows.map f).sum → sm = (rows.map f).sum) ∧
  (rows ≠ [] →
    (mn ∈ rows.map f ∧ ∀ y, y ∈ rows.map f → mn ≤ y) ∧
    (mx ∈ rows.map f ∧ ∀ y, y ∈ rows.map f → y ≤ mx))

/-- The accumulators of the all group describe all collected rows, for the
total and the four segments, and `len(latenciesMs)` is the number of rows. -/
def AllStats (acc : Acc) : Prop :=
  StatsOf (fun m => m.TotalMs) acc.minMs acc.maxMs acc.sumMs acc.metrics ∧
  StatsOf (fun m => m.SendToSqsMs) acc.minSendMs acc.maxSendMs acc.sumSendMs acc.metrics ∧
  StatsOf (fun m => m.SqsWaitMs) acc.minSqsWaitMs acc.maxSqsWaitMs acc.sumSqsWaitMs acc.metrics ∧
  StatsOf (fun m => m.WorkerMs) acc.minWorkerMs acc.maxWorkerMs acc.sumWorkerMs acc.metrics ∧
  StatsOf (fun m => m.OverheadMs) acc.minOverheadMs acc.maxOverheadMs acc.sumOverheadMs
    acc.metrics ∧
  acc.latenciesMs.length = acc.metrics.length

/-- The warm accumulators describe the given rows, for the total and the four
segments, and `warmCount` is their number. -/
def WarmStats (w : Warm) (rows : List iterMetric) : Prop :=
  StatsOf (fun m => m.TotalMs) w.warmMinTotal w.warmMaxTotal w.warmSumTotal rows ∧
  StatsOf (fun m => m.SendToSqsMs) w.warmMinSend w.warmMaxSend w.warmSumSend rows ∧
  StatsOf (fun m => m.SqsWaitMs) w.warmMinWait w.warmMaxWait w.warmSumWait rows ∧
  StatsOf (fun m => m.WorkerMs) w.warmMinWorker w.warmMaxWorker w.warmSumWorker rows ∧
  StatsOf (fun m => m.OverheadMs) w.warmMinOverhead w.warmMaxOverhead w.warmSumOverhead rows ∧
  w.warmCount = rows.length

/-- Two runs that reach SUCCEEDED with a reported total of 2^62 ms each. -/
def hugeTotalRuns : List Run :=
  [succeededRun 4611686018427387904, succeededRun 4611686018427387904]

end Harness

namespace Api

/-- A run of the API function whose ambient deadline is 100ms ahead of the
clock: client initialised, state machine configured, the execution engine
ready to start and to report SUCCEEDED. -/
def closeDeadlineEnv : ApiEnv :=
  { initErr := none
    STATE_MACHINE_ARN := "arn:aws:states:sm"
    ctxDeadline := some (sampleNowUnixNano + 100 * Millisecond)
    now := sampleNowUnixNano
    unixNano := sampleNowUnixNano
    unmarshal := fun _ => .error "not called"
    startExecution := .ok (some "arn:aws:states:exec")
    describeExecution := fun _ => .ok { Status := "SUCCEEDED" }
    callCtxErr := fun _ => none
    elapsedMs := fun _ => 7 }

end Api

namespace Harness

/-- The fraction `n / d` (with `d > 0`) rounded to the nearest natural number,
a tie going to the even one: the rounding of IEEE-754 arithmetic and of
`strconv` when it shortens an exact decimal expansion. -/
def roundHalfEven (n d : Nat) : Nat :=
  let q := n / d
  let r := n % d
  if 2 * r > d ∨ (2 * r = d ∧ q % 2 = 1) then q + 1 else q

/-- The number of halvings that bring `n` below 2, at most `fuel` of them. -/
def log2Fuel : Nat → Nat → Nat
  | 0, _ => 0
  | fuel + 1, n => if 2 ≤ n then log2Fuel fuel (n / 2) + 1 else 0

/-- The position of the leading bit of `n`: `n` halvings always suffice. -/
def floorLog2 (n : Nat) : Nat := log2Fuel n n

/-- The magnitude of the `float64` nearest to the fraction `n / d` (with
`d > 0`), as a fraction whose denominator is a power of two: the exponent is
chosen so that the significand has 53 bits, and the significand is rounded to
nearest, ties to even. The fractions that occur here lie between `2 ^ (-63)`
and `2 ^ 63`, where `float64` has neither subnormal numbers nor overflow. -/
def roundFloat64 (n d : Nat) : Nat × Nat :=
  if n = 0 then (0, 1)
  else
    let e0 : Int := (floorLog2 n : Int) - (floorLog2 d : Int) - 52
    let e : Int :=
      if (n * 2 ^ (-e0).toNat) / (d * 2 ^ e0.toNat) < 2 ^ 52 then e0 - 1 else e0
    let mant := roundHalfEven (n * 2 ^ (-e).toNat) (d * 2 ^ e.toNat)
    (mant * 2 ^ e.toNat, 2 ^ (-e).toNat)

/-- The magnitude of the Go conversion `float64(x)` of a 64-bit integer. -/
def float64OfInt64 (x : Int) : Nat × Nat := roundFloat64 x.natAbs 1

/-- The `%.3f` text of a finite number given by its sign and its magnitude in
thousandths: the integer digits, a point and three fraction digits. -/
def fixed3 (neg : Bool) (t : Nat) : String :=
  (if neg then "-" else "") ++ toString (t / 1000) ++ "." ++
    toString (t % 1000 / 100) ++ toString (t % 100 / 10) ++ toString (t % 10)

/-- Go `fmt.Sprintf("%.3f", float64(sum) / float64(count))` (lines 277-282,
393-400, 413) for 64-bit integers: both conversions and the division round to
the nearest `float64`, and the text is the exact value of the quotient rounded
to three fraction digits. A zero denominator gives the texts of not-a-number
and of the infinities. -/
def sprintfAvg (sum count : Int) : String :=
  if count = 0 then
    if sum = 0 then "NaN" else if sum > 0 then "+Inf" else "-Inf"
  else
    let x := float64OfInt64 sum
    let y := float64OfInt64 count
    let q := roundFloat64 (x.1 * y.2) (x.2 * y.1)
    fixed3 (decide (sum < 0) != decide (count < 0)) (roundHalfEven (q.1 * 1000) q.2)

end Harness

/-! ## Arithmetic helpers -/

theorem wrap64_of_isInt64 {x : Int} (h : isInt64 x) : wrap64 x = x := by
  unfold isInt64 minInt64 maxInt64 at h
  unfold wrap64
  omega

theorem isInt64_wrap64 (x : Int) : isInt64 (wrap64 x) := by
  unfold isInt64 minInt64 maxInt64 wrap64
  omega

theorem tdiv_million (n : Int) :
    (0 ≤ n ∧ Int.tdiv n 1000000 = n / 1000000) ∨
    (n < 0 ∧ Int.tdiv n 1000000 = -((-n) / 1000000)) := by
  by_cases h : 0 ≤ n
  · exact Or.inl ⟨h, Int.tdiv_eq_ediv h (by decide)⟩
  · right
    refine ⟨by omega, ?_⟩
    have h1 : n = -(-n) := by omega
    have h2 : (0 : Int) ≤ -n := by omega
    calc Int.tdiv n 1000000 = Int.tdiv (-(-n)) 1000000 := by rw [← h1]
      _ = -(Int.tdiv (-n) 1000000) := Int.neg_tdiv _ _
      _ = -((-n) / 1000000) := by rw [Int.tdiv_eq_ediv h2 (by decide)]

namespace Api

theorem clampRequested_pos (requested : Int) : 0 < clampRequested requested := by
  simp only [clampRequested, Second]
  split_ifs <;> omega

theorem clampRequested_le (requested : Int) : clampRequested requested ≤ 28 * Second := by
  simp only [clampRequested, Second]
  split_ifs <;> omega

/-- With a deadline the result never exceeds the clamped request, is never
negative, and is the clamped request itself without a deadline. -/
theorem effectiveTimeout_le_clamp (ctxDeadline : Option Int) (now requested : Int) :
    0 ≤ effectiveTimeout ctxDeadline now requested ∧
    effectiveTimeout ctxDeadline now requested ≤ clampRequested requested := by
  have hp := clampRequested_pos requested
  cases ctxDeadline with
  | none => simp only [effectiveTimeout]; omega
  | some d =>
    simp only [effectiveTimeout]
    split_ifs <;> omega

/-- C1: deadline composition is monotonic in the ambient deadline. For every
requested duration, every current instant `now` and every pair of ambient
deadlines `d1 <= d2` whose time remaining after the margin is a
`time.Duration` (the earlier deadline lies no more than 2^63 ns - 250ms, about
292 years, before `now`, as the deadline of a Lambda invocation context, which
is the context this function is written for, always does), `effectiveTimeout`
with deadline `d1` is at most `effectiveTimeout` with deadline `d2`, which is
at most `effectiveTimeout` without ambient deadline. -/
theorem effectiveTimeout_mono_of_no_wrap (requested now d1 d2 : Int) (h : d1 ≤ d2)
    (hr : minInt64 + 250 * Millisecond ≤ d1 - now) :
    effectiveTimeout (some d1) now requested ≤ effectiveTimeout (some d2) now requested ∧
    effectiveTimeout (some d2) now requested ≤ effectiveTimeout none now requested := by
  have hp := clampRequested_pos requested
  refine ⟨?_, (effectiveTimeout_le_clamp (some d2) now requested).2⟩
  simp only [effectiveTimeout, timeUntil, timeSub, wrap64, minInt64, maxInt64, Millisecond] at *
  split_ifs <;> omega

/-- Away from the wrap-around of the margin subtraction, the effective timeout
is the minimum of the remaining time after the margin and the clamped request,
and zero when nothing remains. -/
theorem effectiveTimeout_some_of_no_wrap (requested now d : Int)
    (hr : minInt64 + 250 * Millisecond ≤ d - now) :
    effectiveTimeout (some d) now requested =
      if d - now - 250 * Millisecond ≤ 0 then 0
      else min (d - now - 250 * Millisecond) (clampRequested requested) := by
  have hp := clampRequested_pos requested
  have hl := clampRequested_le requested
  simp only [effectiveTimeout, timeUntil, timeSub, wrap64, minInt64, maxInt64, Millisecond,
    Second, min_def] at *
  split_ifs <;> omega

/-- C3: with an ambient deadline `effectiveTimeout` subtracts the 250ms margin
and takes the minimum. For every requested duration, instant `now` and
deadline `d` whose time remaining after the margin is a `time.Duration` (`d`
lies no more than 2^63 ns - 250ms before `now`, as the deadline of a Lambda
invocation context always does), with `r` the request clamped with default 25s
and ceiling 28s and `remaining = (d - now) - 250ms`, the result is
`min(remaining, r)` whenever `remaining > 0` and 0 whenever `remaining <= 0`. -/
theorem effectiveTimeout_margin_min_of_no_wrap (requested now d : Int)
    (hr : minInt64 + 250 * Millisecond ≤ d - now) :
    effectiveTimeout (some d) now requested =
      if d - now - 250 * Millisecond ≤ 0 then 0
      else min (d - now - 250 * Millisecond)
        (if requested ≤ 0 then 25 * Second
         else if requested > 28 * Second then 28 * Second
         else requested) := by
  have hc : clampRequested requested =
      (if requested ≤ 0 then 25 * Second
       else if requested > 28 * Second then 28 * Second
       else requested) := by
    simp only [clampRequested, Second]
    split_ifs <;> omega
  rw [← hc]
  exact effectiveTimeout_some_of_no_wrap requested now d hr

/-- C4: when the client is initialised, the state machine identifier is
configured and the request body parses, an ambient deadline that leaves
nothing after the 250ms margin (the time remaining being a `time.Duration`:
the deadline lies no more than 2^63 ns - 250ms before `now`, as the deadline
of a Lambda invocation context always does) makes the handler fail immediately
with HTTP 504, status "TIMEOUT" and the message "deadline too close": whatever
the fuel, no `StartExecution` and no `DescribeExecution` call is made, nor any
other collaborator call. -/
theorem handler_deadline_too_close_of_no_wrap (env : ApiEnv) (reqBody : String) (fuel : Nat)
    (d : Int) (body : apiRequest)
    (hinit : env.initErr = none) (harn : TrimSpace env.STATE_MACHINE_ARN ≠ "")
    (hparse : (if TrimSpace reqBody ≠ "" then env.unmarshal reqBody else .ok {}) = .ok body)
    (hd : env.ctxDeadline = some d) (hr : minInt64 + 250 * Millisecond ≤ d - env.now)
    (hrem : d - env.now - 250 * Millisecond ≤ 0) :
    handler env reqBody fuel =
      some (jsonResp 504 { Status := "TIMEOUT", Error := "deadline too close" }, []) := by
  have hz : maxWaitOf env body ≤ 0 := by
    unfold maxWaitOf
    rw [hd, effectiveTimeout_some_of_no_wrap _ _ _ hr, if_pos hrem]
  simp only [handler, hinit, harn, if_false, hparse, hz, if_true]

/-- Without ambient deadline and without overflow of the millisecond to
nanosecond product, every `maxWaitMs` above 28000 gets the 28000ms budget. -/
theorem maxWaitOf_ceiling_of_no_overflow (env : ApiEnv) (body : apiRequest)
    (hd : env.ctxDeadline = none) (h1 : 28000 < body.MaxWaitMs)
    (h2 : body.MaxWaitMs ≤ 9223372036854) :
    maxWaitOf env body = 28000 * Millisecond := by
  have hw : wrap64 (body.MaxWaitMs * Millisecond) = body.MaxWaitMs * Millisecond := by
    apply wrap64_of_isInt64
    unfold isInt64 minInt64 maxInt64 Millisecond
    omega
  have hpos : body.MaxWaitMs > 0 := by omega
  simp only [maxWaitOf, hd, hpos, if_true, hw, effectiveTimeout, clampRequested]
  simp only [Second, Millisecond]
  split_ifs <;> omega


/-- Beyond the range of `time.Duration`, which no Lambda invocation context
reaches: with the clock at `sampleNowUnixNano` the deadline `time.Time{}` lies
before the deadline `now`, yet `effectiveTimeout` returns the whole default of
25s for the earlier deadline and 0 for the later one. -/
theorem effectiveTimeout_zero_time_deadline_above_later_deadline :
    zeroTimeUnixNano ≤ sampleNowUnixNano ∧
    effectiveTimeout (some zeroTimeUnixNano) sampleNowUnixNano 0 = 25 * Second ∧
    effectiveTimeout (some sampleNowUnixNano) sampleNowUnixNano 0 = 0 ∧
    ¬ (effectiveTimeout (some zeroTimeUnixNano) sampleNowUnixNano 0 ≤
        effectiveTimeout (some sampleNowUnixNano) sampleNowUnixNano 0) := by
  decide

/-- Witness for C1: a deadline 100ms ahead and a deadline 10s ahead of the
clock, for a request of 5s. -/
theorem effectiveTimeout_mono_of_no_wrap_witness :
    sampleNowUnixNano + 100 * Millisecond ≤ sampleNowUnixNano + 10 * Second ∧
    effectiveTimeout (some (sampleNowUnixNano + 100 * Millisecond)) sampleNowUnixNano (5 * Second)
      ≤ effectiveTimeout (some (sampleNowUnixNano + 10 * Second)) sampleNowUnixNano (5 * Second) ∧
    effectiveTimeout (some (sampleNowUnixNano + 10 * Second)) sampleNowUnixNano (5 * Second)
      ≤ effectiveTimeout none sampleNowUnixNano (5 * Second) :=
  ⟨by decide,
    effectiveTimeout_mono_of_no_wrap (5 * Second) sampleNowUnixNano
      (sampleNowUnixNano + 100 * Millisecond) (sampleNowUnixNano + 10 * Second)
      (by decide) (by decide)⟩

/-- C2: without ambient deadline `effectiveTimeout` is the clamp of the request
with default 25s and ceiling 28s (25s for a request `≤ 0`, 28s for a request
above 28s, the request itself otherwise); a request of 60000ms gives exactly
28000ms, and with any ambient deadline a request of 60000ms gives at most
28000ms. -/
theorem effectiveTimeout_no_deadline_clamp (now requested : Int) :
    effectiveTimeout none now requested =
      (if requested ≤ 0 then 25 * Second
       else if requested > 28 * Second then 28 * Second
       else requested) ∧
    effectiveTimeout none now (60000 * Millisecond) = 28000 * Millisecond ∧
    ∀ deadline : Int,
      effectiveTimeout (some deadline) now (60000 * Millisecond) ≤ 28000 * Millisecond := by
  refine ⟨?_, by simp only [effectiveTimeout]; decide, fun deadline => ?_⟩
  · simp only [effectiveTimeout, clampRequested, Second]
    split_ifs <;> omega
  · have h := (effectiveTimeout_le_clamp (some deadline) now (60000 * Millisecond)).2
    have hc : clampRequested (60000 * Millisecond) = 28000 * Millisecond := by decide
    omega

/-- Beyond the range of `time.Duration`: for the deadline `time.Time{}` the
remaining time after the 250ms margin is negative, `time.Until` saturates at
`minDuration`, the subtraction of the margin wraps around to a positive
duration, and `effectiveTimeout` returns the requested 5s instead of 0. -/
theorem effectiveTimeout_zero_time_deadline_margin_wraps :
    zeroTimeUnixNano - sampleNowUnixNano - 250 * Millisecond ≤ 0 ∧
    timeUntil zeroTimeUnixNano sampleNowUnixNano = minInt64 ∧
    wrap64 (minInt64 - 250 * Millisecond) = 9223372036604775808 ∧
    effectiveTimeout (some zeroTimeUnixNano) sampleNowUnixNano (5 * Second) = 5 * Second ∧
    effectiveTimeout (some zeroTimeUnixNano) sampleNowUnixNano (5 * Second) ≠ 0 := by
  decide

/-- Witness for C3: a deadline 2s ahead of the clock leaves 1750ms after the
margin, less than the requested 5s. -/
theorem effectiveTimeout_margin_min_of_no_wrap_witness :
    minInt64 + 250 * Millisecond ≤ sampleNowUnixNano + 2 * Second - sampleNowUnixNano ∧
    effectiveTimeout (some (sampleNowUnixNano + 2 * Second)) sampleNowUnixNano (5 * Second)
      = 1750 * Millisecond :=
  ⟨by decide,
    (effectiveTimeout_margin_min_of_no_wrap (5 * Second) sampleNowUnixNano
      (sampleNowUnixNano + 2 * Second) (by decide)).trans (by decide)⟩

/-- Beyond the range of `time.Duration`: the ambient deadline `time.Time{}`
leaves no time after the margin, yet the handler does not answer "deadline too
close"; it derives a 25s call context and reaches the `StartExecution` call,
which is made on the expired context and returns the context error, so the
outcome still is HTTP 504 with status "TIMEOUT". -/
theorem handler_zero_time_deadline_starts_execution :
    zeroTimeUnixNano - sampleNowUnixNano - 250 * Millisecond ≤ 0 ∧
    handler zeroDeadlineEnv "" 0 =
      some (jsonResp 504 { Status := "TIMEOUT", Error := "context deadline exceeded" },
        [Call.WithTimeout (25 * Second),
         Call.StartExecution "arn:aws:states:sm"
           { runId := "run-1800000000000000000", delaySeconds := 0, messageBodyBytes := 0 }]) ∧
    handler zeroDeadlineEnv "" 0 ≠
      some (jsonResp 504 { Status := "TIMEOUT", Error := "deadline too close" }, []) := by
  decide

/-- Witness for C4: a deadline 100ms ahead of the clock leaves -150ms after the
margin; the handler answers 504 / TIMEOUT and makes no call. -/
theorem handler_deadline_too_close_of_no_wrap_witness :
    sampleNowUnixNano + 100 * Millisecond - sampleNowUnixNano - 250 * Millisecond ≤ 0 ∧
    handler closeDeadlineEnv "" 5 =
      some (jsonResp 504 { Status := "TIMEOUT", Error := "deadline too close" }, []) :=
  ⟨by decide,
    handler_deadline_too_close_of_no_wrap closeDeadlineEnv "" 5
      (sampleNowUnixNano + 100 * Millisecond) {} rfl (by decide) rfl rfl (by decide) (by decide)⟩

/-- C5, evaluated at the failing input: for `maxWaitMs = 9223372036855` the
product with `time.Millisecond` wraps to a negative `Duration`, and the
handler applies a budget of 25000ms to the call context, not 28000ms; for
`maxWaitMs = 76480200929599801` the product wraps to 64ns and that is the
budget. -/
theorem handler_huge_maxWaitMs_budget_not_ceiling :
    (9223372036855 : Int) > 28000 ∧ isInt64 9223372036855 ∧
    wrap64 (9223372036855 * Millisecond) = -9223372036854551616 ∧
    handler hugeMaxWaitEnv hugeMaxWaitBody 1 =
      some (jsonResp 200 { ExecutionArn := "arn:aws:states:exec", TotalMs := 7,
                           Status := "SUCCEEDED" },
        [Call.WithTimeout (25000 * Millisecond),
         Call.StartExecution "arn:aws:states:sm"
           { runId := "r1", delaySeconds := 0, messageBodyBytes := 0 },
         Call.DescribeExecution "arn:aws:states:exec"]) ∧
    maxWaitOf hugeMaxWaitEnv { MaxWaitMs := 76480200929599801 } = 64 := by
  decide


theorem clampDelaySeconds_eq_clampInt (d : Int) :
    Dispatcher.clampDelaySeconds d = clampInt d 0 900 := by
  simp only [Dispatcher.clampDelaySeconds, clampInt]
  split_ifs <;> omega

theorem clampInt_delay_bounds (d : Int) : 0 ≤ clampInt d 0 900 ∧ clampInt d 0 900 ≤ 900 := by
  unfold clampInt
  split_ifs <;> omega

/-- C6: `clampInt(d, 0, 900)` lies in `[0, 900]`, is `d` exactly when `d` is
already in `[0, 900]`, and is idempotent; the inline clamp of the dispatcher
handler computes the same value, and that value is the `DelaySeconds` of the
message the dispatcher sends. -/
theorem clampInt_delay_idempotent_projection (d : Int) :
    (0 ≤ clampInt d 0 900 ∧ clampInt d 0 900 ≤ 900) ∧
    (clampInt d 0 900 = d ↔ (0 ≤ d ∧ d ≤ 900)) ∧
    clampInt (clampInt d 0 900) 0 900 = clampInt d 0 900 ∧
    Dispatcher.clampDelaySeconds d = clampInt d 0 900 ∧
    ∀ (env : Dispatcher.Env) (req : Dispatcher.Request),
      (Dispatcher.handler env req).2 = [] ∨
      (Dispatcher.handler env req).2.map Dispatcher.SendMessageInput.DelaySeconds
        = [clampInt req.Input.DelaySeconds 0 900] := by
  have hc := clampDelaySeconds_eq_clampInt d
  have hb := clampInt_delay_bounds d
  refine ⟨hb, ?_, ?_, hc, ?_⟩
  · unfold clampInt
    split_ifs <;> omega
  · unfold clampInt
    split_ifs <;> omega
  · intro env req
    have hb2 := clampInt_delay_bounds req.Input.DelaySeconds
    have h32 : Dispatcher.toInt32 (Dispatcher.clampDelaySeconds req.Input.DelaySeconds)
        = clampInt req.Input.DelaySeconds 0 900 := by
      rw [clampDelaySeconds_eq_clampInt]
      unfold Dispatcher.toInt32
      omega
    cases h1 : env.initErr <;> cases h2 : env.sendMessageErr <;>
      simp only [Dispatcher.handler, h1, h2, h32] <;> split_ifs <;> simp

end Api

namespace Harness

theorem nanosToMs_nonpos {n : Int} (h : n ≤ 0) : nanosToMs n ≤ 0 := by
  unfold nanosToMs Millisecond
  rcases tdiv_million n with ⟨_, h2⟩ | ⟨_, h2⟩ <;> omega

theorem nanosToMs_bounds {n : Int} (h : isInt64 n) :
    -9223372036854 ≤ nanosToMs n ∧ nanosToMs n ≤ 9223372036854 := by
  unfold isInt64 minInt64 maxInt64 at h
  unfold nanosToMs Millisecond
  rcases tdiv_million n with ⟨_, h2⟩ | ⟨_, h2⟩ <;> omega

theorem sendToSqsMs_bounds (o : execOutput) :
    0 ≤ sendToSqsMs o ∧ sendToSqsMs o ≤ 9223372036854 := by
  simp only [sendToSqsMs]
  have h := nanosToMs_bounds (isInt64_wrap64 (sqsSentUnixNano o - o.SendStartUnixNano))
  split_ifs <;> omega

theorem sqsWaitMs_bounds (o : execOutput) :
    0 ≤ sqsWaitMs o ∧ sqsWaitMs o ≤ 9223372036854 := by
  simp only [sqsWaitMs]
  have h1 := nanosToMs_bounds (isInt64_wrap64 (o.ReceiveUnixNano - o.SendUnixNano))
  have h2 := nanosToMs_bounds (isInt64_wrap64 (o.ReceiveUnixNano - sqsSentUnixNano o))
  split_ifs <;> omega

theorem workerMs_bounds (o : execOutput) :
    0 ≤ workerMs o ∧ workerMs o ≤ 9223372036854 := by
  simp only [workerMs]
  have h1 := nanosToMs_bounds (isInt64_wrap64 (o.WorkerDoneUnixNano - o.ReceiveUnixNano))
  split_ifs <;> omega


/-- C7, counterexample: the receive instant lies before the raw send instant
(the sender's clock runs two seconds ahead), the queue supplied its sent
timestamp, and the queue wait is 500ms, not 0. -/
theorem sqsWaitMs_skew_counterexample :
    skewedWithQueueStamp.ReceiveUnixNano < skewedWithQueueStamp.SendUnixNano ∧
    sqsWaitMs skewedWithQueueStamp = 500 ∧
    sqsWaitMs skewedWithQueueStamp ≠ 0 := by
  decide

/-- C7, amended: for a Timestamp Set with `receiveUnixNano < sendUnixNano` the
queue wait is 0 when the queue-sent instant is not known (its scaled value is
not positive, so the raw send instant is the base); when it is known the wait
is measured against it, `max(0, receive - queueSent)` in milliseconds. In both
cases it is never negative. -/
theorem sqsWaitMs_under_skew (o : execOutput)
    (hS : isInt64 o.SendUnixNano) (hR : isInt64 o.ReceiveUnixNano)
    (hskew : o.ReceiveUnixNano < o.SendUnixNano) :
    sqsWaitMs o =
      (if sqsSentUnixNano o ≤ 0 then 0
       else max 0 (nanosToMs (o.ReceiveUnixNano - sqsSentUnixNano o))) ∧
    0 ≤ sqsWaitMs o := by
  refine ⟨?_, (sqsWaitMs_bounds o).1⟩
  have hq := isInt64_wrap64 (o.SqsSentTimestampMs * Millisecond)
  unfold isInt64 minInt64 maxInt64 at hS hR hq
  simp only [sqsWaitMs]
  by_cases hb : sqsSentUnixNano o ≤ 0
  · simp only [hb, if_true]
    by_cases hr : o.ReceiveUnixNano > 0
    · have hw : wrap64 (o.ReceiveUnixNano - o.SendUnixNano) ≤ 0 := by
        unfold wrap64
        omega
      have hn := nanosToMs_nonpos hw
      split_ifs <;> omega
    · simp only [hr, if_false]
  · simp only [hb, if_false]
    unfold sqsSentUnixNano at hb ⊢
    by_cases hr : o.ReceiveUnixNano > 0
    · have hw : wrap64 (o.ReceiveUnixNano - wrap64 (o.SqsSentTimestampMs * Millisecond))
          = o.ReceiveUnixNano - wrap64 (o.SqsSentTimestampMs * Millisecond) := by
        apply wrap64_of_isInt64
        unfold isInt64 minInt64 maxInt64
        omega
      rw [hw, max_def]
      split_ifs <;> omega
    · have hn := nanosToMs_nonpos
        (show o.ReceiveUnixNano - wrap64 (o.SqsSentTimestampMs * Millisecond) ≤ 0 by omega)
      rw [max_def]
      split_ifs <;> omega

/-- Witness for C7: the skewed Timestamp Set without queue-sent timestamp has
queue wait 0. -/
theorem sqsWaitMs_under_skew_witness :
    isInt64 skewedWithoutQueueStamp.SendUnixNano ∧
    isInt64 skewedWithoutQueueStamp.ReceiveUnixNano ∧
    skewedWithoutQueueStamp.ReceiveUnixNano < skewedWithoutQueueStamp.SendUnixNano ∧
    sqsWaitMs skewedWithoutQueueStamp = 0 :=
  ⟨by decide, by decide, by decide,
    (sqsWaitMs_under_skew skewedWithoutQueueStamp (by decide) (by decide) (by decide)).1.trans
      (by decide)⟩

/-- C8, counterexample: in Scenario C the decomposer does not yield 5. -/
theorem sendToSqsMs_scenarioC_counterexample :
    scenarioC.SendStartUnixNano = 1000 ∧ scenarioC.SqsSentTimestampMs = 5 ∧
    sendToSqsMs scenarioC ≠ 5 := by
  decide

/-- C8, amended: with `sendStartUnixNano = 1000` and the millisecond timestamp 5
the decomposer yields `sendToSqsMs = 4`: the queue-sent instant scales to
5,000,000 ns, the difference to the send start is 4,999,000 ns, and
`nanosToMs` truncates `max(0, 5*1e6 - 1000)` to 4. -/
theorem sendToSqsMs_scenarioC (o : execOutput)
    (hs : o.SendStartUnixNano = 1000) (hq : o.SqsSentTimestampMs = 5) :
    sendToSqsMs o = 4 ∧
    sendToSqsMs o = nanosToMs (max 0 (o.SqsSentTimestampMs * 1000000 - o.SendStartUnixNano)) := by
  simp only [sendToSqsMs, sqsSentUnixNano, hs, hq]
  decide

/-- Witness for C8: the Timestamp Set of Scenario C. -/
theorem sendToSqsMs_scenarioC_witness :
    scenarioC.SendStartUnixNano = 1000 ∧ scenarioC.SqsSentTimestampMs = 5 ∧
    sendToSqsMs scenarioC = 4 :=
  ⟨rfl, rfl, (sendToSqsMs_scenarioC scenarioC rfl rfl).1⟩

/-- C9: for every run, with the total being the reported total when it is
positive and the wall-clock total otherwise, the Metric Row satisfies
`overheadMs = max(0, totalMs - (sendToSqsMs + sqsWaitMs + workerMs))`, the
right-hand side taken over the mathematical integers. -/
theorem decompose_overhead_invariant (i apiTotalMs wall : Int) (o : execOutput)
    (hapi : isInt64 apiTotalMs) (hwall : isInt64 wall) :
    (decompose i apiTotalMs wall o).TotalMs =
      (if apiTotalMs > 0 then apiTotalMs else durationMilliseconds wall) ∧
    (decompose i apiTotalMs wall o).OverheadMs =
      max 0 ((decompose i apiTotalMs wall o).TotalMs -
        ((decompose i apiTotalMs wall o).SendToSqsMs + (decompose i apiTotalMs wall o).SqsWaitMs
          + (decompose i apiTotalMs wall o).WorkerMs)) := by
  have h1 := sendToSqsMs_bounds o
  have h2 := sqsWaitMs_bounds o
  have h3 := workerMs_bounds o
  have hw : -9223372036854 ≤ durationMilliseconds wall ∧
      durationMilliseconds wall ≤ 9223372036854 := nanosToMs_bounds hwall
  have hl : -9223372036854 ≤ latencyMs apiTotalMs wall ∧ latencyMs apiTotalMs wall ≤ maxInt64 := by
    unfold isInt64 at hapi
    unfold latencyMs
    unfold maxInt64 at *
    split_ifs <;> omega
  unfold maxInt64 at hl
  have e1 : wrap64 (sendToSqsMs o + sqsWaitMs o) = sendToSqsMs o + sqsWaitMs o := by
    apply wrap64_of_isInt64
    unfold isInt64 minInt64 maxInt64
    omega
  have e2 : wrap64 (sendToSqsMs o + sqsWaitMs o + workerMs o)
      = sendToSqsMs o + sqsWaitMs o + workerMs o := by
    apply wrap64_of_isInt64
    unfold isInt64 minInt64 maxInt64
    omega
  have e3 : wrap64 (latencyMs apiTotalMs wall - (sendToSqsMs o + sqsWaitMs o + workerMs o))
      = latencyMs apiTotalMs wall - (sendToSqsMs o + sqsWaitMs o + workerMs o) := by
    apply wrap64_of_isInt64
    unfold isInt64 minInt64 maxInt64
    omega
  constructor
  · simp only [decompose, latencyMs]
    split_ifs <;> omega
  · simp only [decompose, overheadMs, e1, e2, e3, max_def]
    split_ifs <;> omega

/-- Witness for C9: a run with reported total 120ms and worker time 1ms has
overhead 119ms. -/
theorem decompose_overhead_invariant_witness :
    isInt64 120 ∧ isInt64 130000000 ∧
    (decompose 0 120 130000000 skewedWithoutQueueStamp).TotalMs = 120 ∧
    (decompose 0 120 130000000 skewedWithoutQueueStamp).OverheadMs = 119 :=
  ⟨by decide, by decide,
    (decompose_overhead_invariant 0 120 130000000 skewedWithoutQueueStamp
      (by decide) (by decide)).1.trans (by decide),
    (decompose_overhead_invariant 0 120 130000000 skewedWithoutQueueStamp
      (by decide) (by decide)).2.trans (by decide)⟩

/-- C10: for every Timestamp Set and every total, with all fields arbitrary
integers and Go's wrap-around arithmetic, the four segment durations of the
Metric Row are non-negative. -/
theorem decompose_segments_nonneg (i apiTotalMs wall : Int) (o : execOutput) :
    0 ≤ (decompose i apiTotalMs wall o).SendToSqsMs ∧
    0 ≤ (decompose i apiTotalMs wall o).SqsWaitMs ∧
    0 ≤ (decompose i apiTotalMs wall o).WorkerMs ∧
    0 ≤ (decompose i apiTotalMs wall o).OverheadMs := by
  refine ⟨(sendToSqsMs_bounds o).1, (sqsWaitMs_bounds o).1, (workerMs_bounds o).1, ?_⟩
  simp only [decompose, overheadMs]
  split_ifs <;> omega

end Harness

namespace Api

theorem runningPolls_succ (execArn : String) (n : Nat) :
    runningPolls execArn (n + 1) =
      [Call.DescribeExecution execArn, Call.Sleep (50 * Millisecond)] ++ runningPolls execArn n := by
  simp [runningPolls, List.replicate_succ]

theorem failureMessage_eq (desc : DescribeExecutionOutput) :
    (if awsToString desc.Cause = "" then awsToString desc.Error else awsToString desc.Cause)
      = failureMessage desc.Cause desc.Error := by
  unfold failureMessage awsToString
  cases desc.Cause with
  | none => simp
  | some c => by_cases h : c = "" <;> simp [h]

theorem pollLoop_terminal_failure (env : ApiEnv) (execArn : String) (desc : DescribeExecutionOutput) :
    ∀ (n fuel k : Nat) (tr : List Call),
      (∀ j, j ≤ n → env.callCtxErr (k + j) = none) →
      (∀ j, j < n → ∃ d, env.describeExecution (k + j) = .ok d ∧ d.Status ≠ "SUCCEEDED" ∧
          d.Status ≠ "FAILED" ∧ d.Status ≠ "ABORTED" ∧ d.Status ≠ "TIMED_OUT") →
      env.describeExecution (k + n) = .ok desc →
      (desc.Status = "FAILED" ∨ desc.Status = "ABORTED" ∨ desc.Status = "TIMED_OUT") →
      n < fuel →
      pollLoop env execArn fuel k tr =
        some (jsonResp 500 { ExecutionArn := execArn, TotalMs := env.elapsedMs (k + n),
                             Status := desc.Status, Output := none,
                             Error := failureMessage desc.Cause desc.Error },
              tr ++ runningPolls execArn n ++ [Call.DescribeExecution execArn]) := by
  intro n
  induction n with
  | zero =>
    intro fuel k tr hctx _ hdesc hfail hfuel
    obtain ⟨f, rfl⟩ : ∃ f, fuel = f + 1 := ⟨fuel - 1, by omega⟩
    have hc := hctx 0 (Nat.le_refl 0)
    simp only [Nat.add_zero] at hc hdesc ⊢
    have hns : desc.Status ≠ "SUCCEEDED" := by
      rcases hfail with h | h | h <;> rw [h] <;> decide
    simp only [pollLoop, hc, hdesc, hns, if_false, hfail, if_true, failureMessage_eq,
      runningPolls, List.replicate_zero, List.flatten_nil, List.append_nil]
  | succ n ih =>
    intro fuel k tr hctx hrun hdesc hfail hfuel
    obtain ⟨f, rfl⟩ : ∃ f, fuel = f + 1 := ⟨fuel - 1, by omega⟩
    have hc := hctx 0 (Nat.zero_le _)
    obtain ⟨d, hd, h1, h2, h3, h4⟩ := hrun 0 (Nat.succ_pos n)
    simp only [Nat.add_zero] at hc hd
    have hnf : ¬ (d.Status = "FAILED" ∨ d.Status = "ABORTED" ∨ d.Status = "TIMED_OUT") := by
      rintro (h | h | h) <;> contradiction
    have hstep : pollLoop env execArn (f + 1) k tr =
        pollLoop env execArn f (k + 1)
          (tr ++ [Call.DescribeExecution execArn] ++ [Call.Sleep (50 * Millisecond)]) := by
      simp only [pollLoop, hc, hd, h1, if_false, hnf]
    rw [hstep, ih f (k + 1) _ (fun j hj => by
          have := hctx (j + 1) (by omega); rwa [show k + 1 + j = k + (j + 1) by omega])
        (fun j hj => by
          have := hrun (j + 1) (by omega); rwa [show k + 1 + j = k + (j + 1) by omega])
        (by rwa [show k + 1 + n = k + (n + 1) by omega]) hfail (by omega)]
    rw [show k + 1 + n = k + (n + 1) by omega, runningPolls_succ]
    simp only [List.append_assoc, List.cons_append, List.nil_append]

/-- C15: when the client is initialised, the state machine configured, the
body decoded, the budget positive and the execution started, and the status
queries report a non-terminal status `k` times and then FAILED, ABORTED or
TIMED_OUT, the handler (given more than `k` iterations of fuel) returns HTTP
500 with that status, the elapsed time, no output payload, and as error
message the cause when present and not empty, else the error field, else the
empty string; it made `k + 1` status queries and did not go on polling. -/
theorem handler_terminal_failure_message (env : ApiEnv) (reqBody : String) (body : apiRequest)
    (execArn : String) (k fuel : Nat) (desc : DescribeExecutionOutput)
    (hinit : env.initErr = none) (harn : TrimSpace env.STATE_MACHINE_ARN ≠ "")
    (hparse : (if TrimSpace reqBody ≠ "" then env.unmarshal reqBody else .ok {}) = .ok body)
    (hwait : 0 < maxWaitOf env body)
    (hstart : env.startExecution = .ok (some execArn)) (hne : execArn ≠ "")
    (hctx : ∀ j, j ≤ k → env.callCtxErr j = none)
    (hrun : ∀ j, j < k → ∃ d, env.describeExecution j = .ok d ∧ d.Status ≠ "SUCCEEDED" ∧
      d.Status ≠ "FAILED" ∧ d.Status ≠ "ABORTED" ∧ d.Status ≠ "TIMED_OUT")
    (hdesc : env.describeExecution k = .ok desc)
    (hfail : desc.Status = "FAILED" ∨ desc.Status = "ABORTED" ∨ desc.Status = "TIMED_OUT")
    (hfuel : k < fuel) :
    handler env reqBody fuel =
      some (jsonResp 500 { ExecutionArn := execArn, TotalMs := env.elapsedMs k,
                           Status := desc.Status, Output := none,
                           Error := failureMessage desc.Cause desc.Error },
            startCalls env body ++ runningPolls execArn k ++ [Call.DescribeExecution execArn]) := by
  have hw : ¬ maxWaitOf env body ≤ 0 := by omega
  have hp := pollLoop_terminal_failure env execArn desc k fuel 0 (startCalls env body)
    (fun j hj => by rw [Nat.zero_add]; exact hctx j hj)
    (fun j hj => by rw [Nat.zero_add]; exact hrun j hj)
    (by rw [Nat.zero_add]; exact hdesc) hfail hfuel
  rw [Nat.zero_add] at hp
  simp only [handler, hinit, harn, if_false, hparse, hw, hstart, awsToString, Option.getD_some,
    hne]
  exact hp

/-- Witness for C15: an execution that is RUNNING at two status queries and
then FAILED with cause "boom" yields HTTP 500, status FAILED, error message
"boom" and no output payload. -/
theorem handler_terminal_failure_message_witness :
    handler boomEnv "" 3 =
      some (jsonResp 500 { ExecutionArn := "arn:aws:states:exec", TotalMs := 180,
                           Status := "FAILED", Output := none, Error := "boom" },
            startCalls boomEnv {} ++ runningPolls "arn:aws:states:exec" 2 ++
              [Call.DescribeExecution "arn:aws:states:exec"]) :=
  handler_terminal_failure_message boomEnv "" {} "arn:aws:states:exec" 2 3
    { Status := "FAILED", Cause := some "boom", Error := some "States.TaskFailed" }
    rfl (by decide) rfl (by decide) rfl (by decide)
    (fun _ _ => rfl)
    (fun j hj => ⟨{ Status := "RUNNING" }, by
      show (if j < 2 then _ else _) = _
      rw [if_pos hj], by decide, by decide, by decide, by decide⟩)
    rfl (by decide) (by decide)

end Api

namespace Worker

theorem continuations_append (a b : List Event) :
    continuations (a ++ b) = continuations a ++ continuations b := by
  induction a with
  | nil => rfl
  | cons e rest ih => cases e <;> simp [continuations, ih]

theorem updatesFor_append (i : Nat) (a b : List Event) :
    updatesFor i (a ++ b) = updatesFor i a + updatesFor i b := by
  simp [updatesFor, List.filter_append]

theorem sendsFor_append (i : Nat) (a b : List Event) :
    sendsFor i (a ++ b) = sendsFor i a + sendsFor i b := by
  simp [sendsFor, List.filter_append]

/-- The continuation calls of one loop iteration all carry the index of its
record. -/
theorem processRecord_continuations_index (env : Env) (tableName : String) (i : Nat)
    (record : SQSMessage) :
    ∀ c, c ∈ continuations (processRecord env tableName i record).2 → c.1 = i := by
  unfold processRecord
  cases hb : env.unmarshal record.Body with
  | error e => simp [continuations]
  | ok body =>
    by_cases hid : TrimSpace body.ID = ""
    · simp [hid, continuations]
    · by_cases htok : TrimSpace body.TaskToken = ""
      · simp [hid, htok, continuations]
      · cases hs : env.sendTaskSuccess i <;> cases hu : (env.updateItem i).err <;>
          simp [hid, htok, hs, hu, performConditionalUpdate, continuations, continuations_append]

theorem processRecords_continuations_index (env : Env) (tableName : String) :
    ∀ (records : List SQSMessage) (k : Nat),
      ∀ c, c ∈ continuations (processRecords env tableName records k).2 → k ≤ c.1 := by
  intro records
  induction records with
  | nil => intro k c hc; simp [processRecords, continuations] at hc
  | cons r rest ih =>
    intro k c hc
    have h1 := processRecord_continuations_index env tableName k r
    rw [processRecords] at hc
    cases hp : processRecord env tableName k r with
    | mk err evs =>
      rw [hp] at hc h1
      cases err with
      | some e =>
        simp only at hc h1
        exact Nat.le_of_eq (h1 c hc).symm
      | none =>
        simp only [continuations_append, List.mem_append] at hc h1
        rcases hc with hc | hc
        · exact Nat.le_of_eq (h1 c hc).symm
        · exact Nat.le_of_succ_le (ih (k + 1) c hc)

/-- For a well-formed message the loop body attempts the conditional update
once and invokes the continuation once, with the token of the message and the
Timestamp Set built from the message, the queue metadata and the clock
readings; when the continuation call succeeds the body runs to its end without
error. The outcome of the conditional update does not enter. -/
theorem processRecord_wellFormed (env : Env) (tableName : String) (i : Nat) (record : SQSMessage)
    (body : msgBody)
    (hb : env.unmarshal record.Body = .ok body) (hid : TrimSpace body.ID ≠ "")
    (htok : TrimSpace body.TaskToken ≠ "") :
    updatesFor i (processRecord env tableName i record).2 = 1 ∧
    continuations (processRecord env tableName i record).2 =
      [(i, body.TaskToken,
        { ID := body.ID, RunID := body.RunID,
          QueueName := queueNameFromArn record.EventSourceARN, Region := env.region,
          SendUnixNano := body.SendUnixNano, SendStartUnixNano := body.SendStartUnixNano,
          ReceiveUnixNano := env.receiveUnixNano i,
          WorkerDoneUnixNano := env.workerDoneUnixNano i,
          CallbackRequestUnixNano := env.callbackRequestUnixNano i,
          SqsSentTimestampMs :=
            parseInt64OrZero env.parseInt (lookup record.Attributes "SentTimestamp"),
          SqsFirstReceiveTimestampMs :=
            parseInt64OrZero env.parseInt
              (lookup record.Attributes "ApproximateFirstReceiveTimestamp"),
          SqsApproxReceiveCount :=
            parseInt64OrZero env.parseInt (lookup record.Attributes "ApproximateReceiveCount") })]
    ∧ (env.sendTaskSuccess i = none → (processRecord env tableName i record).1 = none) := by
  simp only [processRecord, hb, hid, htok, if_false, performConditionalUpdate]
  cases env.sendTaskSuccess i <;> cases (env.updateItem i).err <;>
    simp [continuations, updatesFor, continuations_append]

/-- The loop reaches a well-formed record when all records before it are
well-formed and their continuation calls succeed; among the continuation calls
of the whole event exactly one is for this record, with its token and its
Timestamp Set, and the conditional update is attempted for it. -/
theorem processRecords_reach (env : Env) (tableName : String) :
    ∀ (records : List SQSMessage) (k n : Nat) (record : SQSMessage) (body : msgBody),
      records[n]? = some record →
      env.unmarshal record.Body = .ok body → TrimSpace body.ID ≠ "" →
      TrimSpace body.TaskToken ≠ "" →
      (∀ j r, j < n → records[j]? = some r →
        ∃ b, env.unmarshal r.Body = .ok b ∧ TrimSpace b.ID ≠ "" ∧ TrimSpace b.TaskToken ≠ "") →
      (∀ j, j < n → env.sendTaskSuccess (k + j) = none) →
      (continuations (processRecords env tableName records k).2).filter
          (fun c => c.1 == k + n) =
        [(k + n, body.TaskToken,
          { ID := body.ID, RunID := body.RunID,
            QueueName := queueNameFromArn record.EventSourceARN, Region := env.region,
            SendUnixNano := body.SendUnixNano, SendStartUnixNano := body.SendStartUnixNano,
            ReceiveUnixNano := env.receiveUnixNano (k + n),
            WorkerDoneUnixNano := env.workerDoneUnixNano (k + n),
            CallbackRequestUnixNano := env.callbackRequestUnixNano (k + n),
            SqsSentTimestampMs :=
              parseInt64OrZero env.parseInt (lookup record.Attributes "SentTimestamp"),
            SqsFirstReceiveTimestampMs :=
              parseInt64OrZero env.parseInt
                (lookup record.Attributes "ApproximateFirstReceiveTimestamp"),
            SqsApproxReceiveCount :=
              parseInt64OrZero env.parseInt
                (lookup record.Attributes "ApproximateReceiveCount") })] ∧
      1 ≤ updatesFor (k + n) (processRecords env tableName records k).2 := by
  intro records
  induction records with
  | nil => intro k n record body hn; simp at hn
  | cons r rest ih =>
    intro k n record body hn hb hid htok hprev hsend
    cases n with
    | zero =>
      simp only [List.getElem?_cons_zero, Option.some.injEq] at hn
      subst hn
      rw [Nat.add_zero]
      obtain ⟨p2, p3, _⟩ := processRecord_wellFormed env tableName k r body hb hid htok
      have hidx := processRecords_continuations_index env tableName rest (k + 1)
      rw [processRecords]
      cases hp : processRecord env tableName k r with
      | mk err evs =>
        rw [hp] at p2 p3
        simp only at p2 p3
        cases err with
        | some e =>
          simp only [p3, p2]
          simp
        | none =>
          simp only [continuations_append, List.filter_append, p3, updatesFor_append, p2]
          have hrest : (continuations (processRecords env tableName rest (k + 1)).2).filter
              (fun c => c.1 == k) = [] := by
            rw [List.filter_eq_nil_iff]
            intro c hc
            have := hidx c hc
            simp only [beq_iff_eq]
            omega
          rw [hrest]
          simp
    | succ m =>
      simp only [List.getElem?_cons_succ] at hn
      obtain ⟨b0, hb0, hid0, htok0⟩ := hprev 0 r (Nat.succ_pos m) (by simp)
      have h0 := hsend 0 (Nat.succ_pos m)
      rw [Nat.add_zero] at h0
      obtain ⟨_, p3, p1⟩ := processRecord_wellFormed env tableName k r b0 hb0 hid0 htok0
      have p1 := p1 h0
      have hrec := ih (k + 1) m record body hn hb hid htok
        (fun j r2 hj hr2 => hprev (j + 1) r2 (by omega) (by simpa using hr2))
        (fun j hj => by
          have := hsend (j + 1) (by omega)
          rwa [show k + 1 + j = k + (j + 1) by omega])
      rw [show k + 1 + m = k + (m + 1) by omega] at hrec
      obtain ⟨q1, q2⟩ := hrec
      rw [processRecords]
      cases hp : processRecord env tableName k r with
      | mk err evs =>
        rw [hp] at p1 p3
        simp only at p1 p3
        subst p1
        simp only [continuations_append, List.filter_append, p3, updatesFor_append]
        rw [q1]
        refine ⟨?_, by omega⟩
        have : ((k == k + (m + 1)) = false) := by
          rw [beq_eq_false_iff_ne]
          omega
        simp [List.filter_cons, this]

theorem processRecords_all_wellFormed (env : Env) (tableName : String) :
    ∀ (records : List SQSMessage) (k : Nat),
      (∀ r, r ∈ records → ∃ b, env.unmarshal r.Body = .ok b ∧ TrimSpace b.ID ≠ "" ∧
        TrimSpace b.TaskToken ≠ "") →
      (∀ j, j < records.length → env.sendTaskSuccess (k + j) = none) →
      (processRecords env tableName records k).1 = none := by
  intro records
  induction records with
  | nil => intro k _ _; rfl
  | cons r rest ih =>
    intro k hgood hsend
    obtain ⟨b, hb, hid, htok⟩ := hgood r (List.mem_cons_self _ _)
    have h0 := hsend 0 (by simp)
    rw [Nat.add_zero] at h0
    obtain ⟨_, _, p1⟩ := processRecord_wellFormed env tableName k r b hb hid htok
    have p1 := p1 h0
    have q := ih (k + 1) (fun r hr => hgood r (List.mem_cons_of_mem _ hr))
      (fun j hj => by
        have := hsend (j + 1) (by simp; omega)
        rwa [show k + 1 + j = k + (j + 1) by omega])
    rw [processRecords]
    cases hp : processRecord env tableName k r with
    | mk err evs =>
      rw [hp] at p1
      simp only at p1
      subst p1
      exact q

/-- C16, counterexample: in an event whose first message has a white-space
id, the second envelope is well-formed and its continuation call would
succeed, yet the handler returns an error and never invokes the continuation
for it. -/
theorem handler_later_envelope_not_resumed_counterexample :
    (∃ b, sampleEnv.unmarshal sampleRecord.Body = .ok b ∧ TrimSpace b.ID ≠ "" ∧
      TrimSpace b.TaskToken ≠ "") ∧
    sampleEnv.sendTaskSuccess 1 = none ∧
    (handler sampleEnv [{ Body := "blank-id" }, sampleRecord]).1
      = some "missing id in message body" ∧
    continuations (handler sampleEnv [{ Body := "blank-id" }, sampleRecord]).2 = [] ∧
    sendsFor 1 (handler sampleEnv [{ Body := "blank-id" }, sampleRecord]).2 = 0 :=
  ⟨⟨_, rfl, by decide, by decide⟩, rfl, by decide, by decide, by decide⟩

/-- C16, amended: for every dequeued envelope with non-blank id and
continuation token that the handler reaches (every earlier record of the event
is such an envelope and the continuation calls before it succeed), the
Consumer invokes the continuation (`SendTaskSuccess`) exactly once, with the
envelope's token and the Timestamp Set built from the envelope, the queue
metadata and the clock readings, whether the conditional update applied,
failed its condition check or errored: under any other update outcomes and
later clock readings the invocation is the same apart from the two instants
read after the update. Provided the continuation call itself succeeds, the
handler returns no error on the event that ends with this envelope, and on the
whole event when every record of it is such an envelope and every continuation
call succeeds, again whatever the update outcomes. -/
theorem handler_update_is_best_effort (env : Env) (records : List SQSMessage) (n : Nat)
    (record : SQSMessage) (body : msgBody) (u : Nat → UpdateOutcome) (wd cb : Nat → Int)
    (hinit : env.initErr = none) (htab : TrimSpace env.TABLE_NAME ≠ "")
    (hn : records[n]? = some record)
    (hb : env.unmarshal record.Body = .ok body) (hid : TrimSpace body.ID ≠ "")
    (htok : TrimSpace body.TaskToken ≠ "")
    (hprev : ∀ j r, j < n → records[j]? = some r →
      ∃ b, env.unmarshal r.Body = .ok b ∧ TrimSpace b.ID ≠ "" ∧ TrimSpace b.TaskToken ≠ "")
    (hsend : ∀ j, j < n → env.sendTaskSuccess j = none) :
    (continuations (handler env records).2).filter (fun c => c.1 == n) =
      [(n, body.TaskToken,
        { ID := body.ID, RunID := body.RunID,
          QueueName := queueNameFromArn record.EventSourceARN, Region := env.region,
          SendUnixNano := body.SendUnixNano, SendStartUnixNano := body.SendStartUnixNano,
          ReceiveUnixNano := env.receiveUnixNano n,
          WorkerDoneUnixNano := env.workerDoneUnixNano n,
          CallbackRequestUnixNano := env.callbackRequestUnixNano n,
          SqsSentTimestampMs :=
            parseInt64OrZero env.parseInt (lookup record.Attributes "SentTimestamp"),
          SqsFirstReceiveTimestampMs :=
            parseInt64OrZero env.parseInt
              (lookup record.Attributes "ApproximateFirstReceiveTimestamp"),
          SqsApproxReceiveCount :=
            parseInt64OrZero env.parseInt (lookup record.Attributes "ApproximateReceiveCount") })]
    ∧
    (continuations (handler (withUpdate env u wd cb) records).2).filter (fun c => c.1 == n) =
      [(n, body.TaskToken,
        { ID := body.ID, RunID := body.RunID,
          QueueName := queueNameFromArn record.EventSourceARN, Region := env.region,
          SendUnixNano := body.SendUnixNano, SendStartUnixNano := body.SendStartUnixNano,
          ReceiveUnixNano := env.receiveUnixNano n,
          WorkerDoneUnixNano := wd n,
          CallbackRequestUnixNano := cb n,
          SqsSentTimestampMs :=
            parseInt64OrZero env.parseInt (lookup record.Attributes "SentTimestamp"),
          SqsFirstReceiveTimestampMs :=
            parseInt64OrZero env.parseInt
              (lookup record.Attributes "ApproximateFirstReceiveTimestamp"),
          SqsApproxReceiveCount :=
            parseInt64OrZero env.parseInt (lookup record.Attributes "ApproximateReceiveCount") })]
    ∧
    (env.sendTaskSuccess n = none →
      (handler env (records.take (n + 1))).1 = none ∧
      (handler (withUpdate env u wd cb) (records.take (n + 1))).1 = none) ∧
    ((∀ r, r ∈ records → ∃ b, env.unmarshal r.Body = .ok b ∧ TrimSpace b.ID ≠ "" ∧
        TrimSpace b.TaskToken ≠ "") →
      (∀ j, j < records.length → env.sendTaskSuccess j = none) →
      (handler env records).1 = none ∧ (handler (withUpdate env u wd cb) records).1 = none) := by
  have hinit2 : (withUpdate env u wd cb).initErr = none := hinit
  have htab2 : TrimSpace (withUpdate env u wd cb).TABLE_NAME ≠ "" := htab
  have h1 := (processRecords_reach env (TrimSpace env.TABLE_NAME) records 0 n record body hn hb
    hid htok hprev (fun j hj => by rw [Nat.zero_add]; exact hsend j hj)).1
  have h2 := (processRecords_reach (withUpdate env u wd cb) (TrimSpace env.TABLE_NAME) records 0 n
    record body hn hb hid htok hprev (fun j hj => by rw [Nat.zero_add]; exact hsend j hj)).1
  rw [Nat.zero_add] at h1 h2
  have hpre : ∀ r, r ∈ records.take (n + 1) →
      ∃ b, env.unmarshal r.Body = .ok b ∧ TrimSpace b.ID ≠ "" ∧ TrimSpace b.TaskToken ≠ "" := by
    intro r hr
    obtain ⟨j, hj⟩ := List.mem_iff_getElem?.mp hr
    rw [List.getElem?_take] at hj
    split_ifs at hj with hlt
    rcases Nat.lt_succ_iff_lt_or_eq.mp hlt with hlt2 | heq
    · exact hprev j r hlt2 hj
    · subst heq
      rw [hn] at hj
      rw [← Option.some.inj hj]
      exact ⟨body, hb, hid, htok⟩
  refine ⟨?_, ?_, ?_, ?_⟩
  · simp only [handler, hinit, htab, if_false]
    exact h1
  · simp only [handler, hinit2, htab2, if_false]
    exact h2
  · intro hown
    have hpres : ∀ j, j < (records.take (n + 1)).length →
        env.sendTaskSuccess (0 + j) = none := by
      intro j hj
      rw [Nat.zero_add]
      rw [List.length_take] at hj
      rcases Nat.lt_succ_iff_lt_or_eq.mp (show j < n + 1 by omega) with hlt | heq
      · exact hsend j hlt
      · rw [heq]; exact hown
    constructor
    · simp only [handler, hinit, htab, if_false]
      exact processRecords_all_wellFormed env _ _ 0 hpre hpres
    · simp only [handler, hinit2, htab2, if_false]
      exact processRecords_all_wellFormed (withUpdate env u wd cb) _ _ 0 hpre hpres
  · intro hgood hall
    constructor
    · simp only [handler, hinit, htab, if_false]
      exact processRecords_all_wellFormed env _ records 0 hgood
        (fun j hj => by rw [Nat.zero_add]; exact hall j hj)
    · simp only [handler, hinit2, htab2, if_false]
      exact processRecords_all_wellFormed (withUpdate env u wd cb) _ records 0 hgood
        (fun j hj => by rw [Nat.zero_add]; exact hall j hj)

/-- Witness for C16: the second of two well-formed envelopes; the conditional
update fails its condition check in `sampleEnv` and is applied, with later
clock readings, in the other run. In both runs the handler returns no error. -/
theorem handler_update_is_best_effort_witness :
    (continuations (handler sampleEnv [sampleRecord, sampleRecord]).2).filter
        (fun c => c.1 == 1) =
      [(1, "tok",
        { ID := "m1", RunID := "r1", QueueName := "requests", Region := "eu-west-1",
          SendUnixNano := 1800000000000000000, SendStartUnixNano := 1800000000000000100,
          ReceiveUnixNano := 1800000000200000000,
          WorkerDoneUnixNano := 1800000000210000000,
          CallbackRequestUnixNano := 1800000000210000100,
          SqsSentTimestampMs := 1800000000050 })] ∧
    (continuations (handler (withUpdate sampleEnv (fun _ => .applied)
        (fun _ => 1800000000290000000) (fun _ => 1800000000290000100))
        [sampleRecord, sampleRecord]).2).filter (fun c => c.1 == 1) =
      [(1, "tok",
        { ID := "m1", RunID := "r1", QueueName := "requests", Region := "eu-west-1",
          SendUnixNano := 1800000000000000000, SendStartUnixNano := 1800000000000000100,
          ReceiveUnixNano := 1800000000200000000,
          WorkerDoneUnixNano := 1800000000290000000,
          CallbackRequestUnixNano := 1800000000290000100,
          SqsSentTimestampMs := 1800000000050 })] ∧
    (handler sampleEnv [sampleRecord, sampleRecord]).1 = none ∧
    (handler (withUpdate sampleEnv (fun _ => .applied)
        (fun _ => 1800000000290000000) (fun _ => 1800000000290000100))
        [sampleRecord, sampleRecord]).1 = none := by
  have h := handler_update_is_best_effort sampleEnv [sampleRecord, sampleRecord] 1 sampleRecord
      { ID := "m1", SendUnixNano := 1800000000000000000,
        SendStartUnixNano := 1800000000000000100, RunID := "r1", TaskToken := "tok" }
      (fun _ => .applied) (fun _ => 1800000000290000000) (fun _ => 1800000000290000100)
      rfl (by decide) rfl rfl (by decide) (by decide)
      (fun j r hj hr => by
        have hj0 : j = 0 := by omega
        subst hj0
        simp only [List.getElem?_cons_zero, Option.some.injEq] at hr
        subst hr
        exact ⟨_, rfl, by decide, by decide⟩)
      (fun _ _ => rfl)
  exact ⟨h.1.trans (by decide), h.2.1.trans (by decide), (h.2.2.1 rfl).1, (h.2.2.1 rfl).2⟩

/-- A message that must be refused makes the loop body return an error before
any collaborator call. -/
theorem processRecord_fatal (env : Env) (tableName : String) (i : Nat) (record : SQSMessage)
    (h : isFatal env record) :
    (processRecord env tableName i record).1 ≠ none ∧
    (processRecord env tableName i record).2 = [] := by
  unfold isFatal at h
  unfold processRecord
  cases hb : env.unmarshal record.Body with
  | error e => simp
  | ok body =>
    rw [hb] at h
    simp only at h
    by_cases hid : TrimSpace body.ID = ""
    · simp [hid]
    · have htok : TrimSpace body.TaskToken = "" := by tauto
      simp [hid, htok]

/-- The calls of one loop iteration: none for another record, at most one
continuation call, an error whenever that call fails, and exactly one
successful call when the body runs to its end. -/
theorem processRecord_calls (env : Env) (tableName : String) (i : Nat) (record : SQSMessage) :
    (∀ j, j ≠ i → updatesFor j (processRecord env tableName i record).2 = 0 ∧
      sendsFor j (processRecord env tableName i record).2 = 0) ∧
    sendsFor i (processRecord env tableName i record).2 ≤ 1 ∧
    (1 ≤ sendsFor i (processRecord env tableName i record).2 → env.sendTaskSuccess i ≠ none →
      (processRecord env tableName i record).1 ≠ none) ∧
    ((processRecord env tableName i record).1 = none →
      env.sendTaskSuccess i = none ∧ sendsFor i (processRecord env tableName i record).2 = 1) := by
  unfold processRecord
  cases hb : env.unmarshal record.Body with
  | error e => simp [updatesFor, sendsFor]
  | ok body =>
    by_cases hid : TrimSpace body.ID = ""
    · simp [hid, updatesFor, sendsFor]
    · by_cases htok : TrimSpace body.TaskToken = ""
      · simp [hid, htok, updatesFor, sendsFor]
      · cases hs : env.sendTaskSuccess i <;> cases hu : (env.updateItem i).err <;>
          simp [hid, htok, hs, hu, performConditionalUpdate, updatesFor, sendsFor,
            List.filter_cons] <;>
          intro j hj <;> simp [Ne.symm hj]

theorem processRecords_calls (env : Env) (tableName : String) :
    ∀ (records : List SQSMessage) (k : Nat),
      (∀ j, j < k → updatesFor j (processRecords env tableName records k).2 = 0 ∧
        sendsFor j (processRecords env tableName records k).2 = 0) ∧
      (∀ n r, records[n]? = some r → isFatal env r →
        (processRecords env tableName records k).1 ≠ none ∧
        updatesFor (k + n) (processRecords env tableName records k).2 = 0 ∧
        sendsFor (k + n) (processRecords env tableName records k).2 = 0) ∧
      (∀ i, sendsFor i (processRecords env tableName records k).2 ≤ 1 ∧
        (1 ≤ sendsFor i (processRecords env tableName records k).2 →
          env.sendTaskSuccess i ≠ none → (processRecords env tableName records k).1 ≠ none)) ∧
      ((processRecords env tableName records k).1 = none →
        ∀ n, n < records.length → env.sendTaskSuccess (k + n) = none ∧
          sendsFor (k + n) (processRecords env tableName records k).2 = 1) := by
  intro records
  induction records with
  | nil =>
    intro k
    simp [processRecords, updatesFor, sendsFor]
  | cons r rest ih =>
    intro k
    obtain ⟨c1, c2, c3, c4⟩ := processRecord_calls env tableName k r
    obtain ⟨i1, i2, i3, i4⟩ := ih (k + 1)
    cases hp : processRecord env tableName k r with
    | mk err evs =>
      rw [hp] at c1 c2 c3 c4
      simp only at c1 c2 c3 c4
      cases err with
      | some e =>
        have e1 : processRecords env tableName (r :: rest) k = (some e, evs) := by
          rw [processRecords, hp]
        rw [e1]
        dsimp only
        refine ⟨fun j hj => c1 j (by omega), ?_, ?_, by simp⟩
        · intro n r2 hn hf
          refine ⟨by simp, ?_⟩
          cases n with
          | zero =>
            simp only [List.getElem?_cons_zero, Option.some.injEq] at hn
            subst hn
            have := (processRecord_fatal env tableName k r hf).2
            rw [hp] at this
            simp only at this
            subst this
            simp [updatesFor, sendsFor]
          | succ m => exact c1 (k + (m + 1)) (by omega)
        · intro i
          by_cases hik : i = k
          · subst hik
            exact ⟨c2, fun _ _ => by simp⟩
          · have := (c1 i hik).2
            exact ⟨by omega, fun h => by omega⟩
      | none =>
        have e1 : processRecords env tableName (r :: rest) k =
            ((processRecords env tableName rest (k + 1)).1,
             evs ++ (processRecords env tableName rest (k + 1)).2) := by
          rw [processRecords, hp]
        obtain ⟨s1, s2⟩ := c4 rfl
        rw [e1]
        dsimp only
        simp only [updatesFor_append, sendsFor_append]
        refine ⟨?_, ?_, ?_, ?_⟩
        · intro j hj
          have a := c1 j (by omega)
          have b := i1 j (by omega)
          omega
        · intro n r2 hn hf
          cases n with
          | zero =>
            simp only [List.getElem?_cons_zero, Option.some.injEq] at hn
            subst hn
            have := (processRecord_fatal env tableName k r hf).1
            rw [hp] at this
            simp at this
          | succ m =>
            simp only [List.getElem?_cons_succ] at hn
            obtain ⟨a1, a2, a3⟩ := i2 m r2 hn hf
            have b := c1 (k + (m + 1)) (by omega)
            rw [show k + 1 + m = k + (m + 1) by omega] at a2 a3
            exact ⟨a1, by omega, by omega⟩
        · intro i
          by_cases hik : i = k
          · subst hik
            have b := i1 i (by omega)
            refine ⟨by omega, fun _ hne => absurd s1 hne⟩
          · have a := c1 i hik
            obtain ⟨b1, b2⟩ := i3 i
            exact ⟨by omega, fun h hne => b2 (by omega) hne⟩
        · intro hnone n hn
          cases n with
          | zero =>
            have b := i1 k (by omega)
            exact ⟨s1, by simp only [Nat.add_zero]; omega⟩
          | succ m =>
            obtain ⟨a1, a2⟩ := i4 hnone m (by simp at hn; omega)
            have b := c1 (k + (m + 1)) (by omega)
            rw [show k + 1 + m = k + (m + 1) by omega] at a1 a2
            exact ⟨a1, by omega⟩

/-- C17: if the message with index `n` of the event does not decode, or has an
empty or white-space id or continuation token, the worker handler returns a
non-nil error and makes neither the conditional update nor the continuation
call for that message; the continuation is invoked at most once per message,
and when an invocation fails the handler returns a non-nil error; the handler
returns nil only if for every record of the event the continuation was invoked
exactly once and that call succeeded. -/
theorem handler_fatal_errors_surface (env : Env) (records : List SQSMessage) :
    (∀ n r, records[n]? = some r → isFatal env r →
      (handler env records).1 ≠ none ∧
      updatesFor n (handler env records).2 = 0 ∧
      sendsFor n (handler env records).2 = 0) ∧
    (∀ n, sendsFor n (handler env records).2 ≤ 1 ∧
      (1 ≤ sendsFor n (handler env records).2 → env.sendTaskSuccess n ≠ none →
        (handler env records).1 ≠ none)) ∧
    ((handler env records).1 = none →
      ∀ n, n < records.length →
        env.sendTaskSuccess n = none ∧ sendsFor n (handler env records).2 = 1) := by
  unfold handler
  cases env.initErr with
  | some e => simp [updatesFor, sendsFor]
  | none =>
    by_cases ht : TrimSpace env.TABLE_NAME = ""
    · simp [ht, updatesFor, sendsFor]
    · obtain ⟨_, h2, h3, h4⟩ := processRecords_calls env (TrimSpace env.TABLE_NAME) records 0
      simp only [ht, if_false]
      refine ⟨fun n r hn hf => ?_, h3, fun hnone n hn => ?_⟩
      · have := h2 n r hn hf
        rwa [Nat.zero_add] at this
      · have := h4 hnone n hn
        rwa [Nat.zero_add] at this

/-- Witness for C17: in an event of three messages whose second has a
white-space id, the handler returns an error and makes no call for the second
message. -/
theorem handler_fatal_errors_surface_witness :
    (handler sampleEnv [sampleRecord, { Body := "blank-id" }, sampleRecord]).1 ≠ none ∧
    updatesFor 1 (handler sampleEnv [sampleRecord, { Body := "blank-id" }, sampleRecord]).2 = 0 ∧
    sendsFor 1 (handler sampleEnv [sampleRecord, { Body := "blank-id" }, sampleRecord]).2 = 0 :=
  (handler_fatal_errors_surface sampleEnv
    [sampleRecord, { Body := "blank-id" }, sampleRecord]).1 1 { Body := "blank-id" } rfl
    (show TrimSpace "  " = "" ∨ TrimSpace "tok" = "" from Or.inl (by decide))

end Worker

theorem toDigitsCore_suffix (fuel n : Nat) (ds : List Char) :
    ∃ pre, Nat.toDigitsCore 10 fuel n ds = pre ++ ds := by
  induction fuel generalizing n ds with
  | zero => exact ⟨[], rfl⟩
  | succ f ih =>
    unfold Nat.toDigitsCore
    simp only
    split_ifs with h
    · exact ⟨[Nat.digitChar (n % 10)], rfl⟩
    · obtain ⟨pre, hp⟩ := ih (n / 10) (Nat.digitChar (n % 10) :: ds)
      exact ⟨pre ++ [Nat.digitChar (n % 10)], by rw [hp]; simp⟩

theorem digitChar_mod_ten_ne_a (n : Nat) : Nat.digitChar (n % 10) ≠ 'a' := by
  have h : n % 10 < 10 := Nat.mod_lt _ (by decide)
  interval_cases (n % 10) <;> decide

theorem natRepr_getLast (n : Nat) :
    ∃ pre, (Nat.repr n).data = pre ++ [Nat.digitChar (n % 10)] := by
  obtain ⟨pre, hp⟩ := toDigitsCore_suffix n (n / 10) [Nat.digitChar (n % 10)]
  unfold Nat.repr Nat.toDigits Nat.toDigitsCore
  simp only [List.asString]
  split_ifs with h
  · exact ⟨[], rfl⟩
  · exact ⟨pre, hp⟩

theorem toString_int_data (x : Int) :
    ∃ pre d, (toString x).data = pre ++ [d] ∧ d ≠ 'a' := by
  cases x with
  | ofNat m =>
    obtain ⟨pre, hp⟩ := natRepr_getLast m
    exact ⟨pre, _, hp, digitChar_mod_ten_ne_a m⟩
  | negSucc m =>
    obtain ⟨pre, hp⟩ := natRepr_getLast (m + 1)
    refine ⟨'-' :: pre, _, ?_, digitChar_mod_ten_ne_a (m + 1)⟩
    show ("-" ++ Nat.repr (m + 1)).data = _
    rw [String.data_append, hp]
    rfl

/-- A text that ends with the `%d` rendering of an integer never is the marker
text "n/a": its last character is a decimal digit. -/
theorem append_toString_int_ne_na (s : String) (x : Int) : s ++ toString x ≠ "n/a" := by
  intro h
  obtain ⟨pre, d, hp, hd⟩ := toString_int_data x
  have h2 : (s ++ toString x).data = ['n', '/', 'a'] := by rw [h]
  rw [String.data_append, hp, ← List.append_assoc] at h2
  have hl := congrArg List.getLast? h2
  simp at hl
  exact hd hl

/-- The `%d` rendering of an integer never is the marker text "n/a". -/
theorem toString_int_ne_na (x : Int) : toString x ≠ "n/a" := by
  have h := append_toString_int_ne_na "" x
  simpa using h

namespace Harness

/-- A run the measuring loop accepts: `callRunAPI` returned no error, the
status is SUCCEEDED and the response carries an execution identifier. -/
theorem iteration_ok (decode : String → execOutput) (repeatN i : Nat) (acc : Acc) (run : Run)
    (h : ∃ resp, run.call = .ok resp ∧ resp.Status = "SUCCEEDED" ∧ resp.ExecutionArn ≠ "") :
    ∃ acc2 m, iteration decode repeatN i acc run = .ok acc2 ∧
      m.Iter = (i : Int) + 1 ∧
      acc2.metrics = acc.metrics ++ [m] ∧
      acc2.latenciesMs = acc.latenciesMs ++ [m.TotalMs] := by
  obtain ⟨resp, hc, hs, ha⟩ := h
  simp only [iteration, hc, hs, ha, ne_eq, not_true_eq_false, if_false]
  exact ⟨_, _, rfl, rfl, rfl, rfl⟩

theorem mainLoop_ok (decode : String → execOutput) (repeatN : Nat) :
    ∀ (runs : List Run) (i : Nat) (acc : Acc),
      (∀ run, run ∈ runs →
        ∃ resp, run.call = .ok resp ∧ resp.Status = "SUCCEEDED" ∧ resp.ExecutionArn ≠ "") →
      ∃ acc2 rows, mainLoop decode repeatN runs i acc = .ok acc2 ∧
        acc2.metrics = acc.metrics ++ rows ∧
        rows.map (fun m => m.Iter) = List.map (fun j : Nat => (j : Int) + 1) (List.range' i runs.length) ∧
        acc2.latenciesMs = acc.latenciesMs ++ rows.map (fun m => m.TotalMs) := by
  intro runs
  induction runs with
  | nil => intro i acc _; exact ⟨acc, [], rfl, by simp, by simp, by simp⟩
  | cons run rest ih =>
    intro i acc h
    obtain ⟨acc1, m, h1, hm, hmet, hlat⟩ :=
      iteration_ok decode repeatN i acc run (h run (List.mem_cons_self _ _))
    obtain ⟨acc2, rows, h2, hmet2, hit, hlat2⟩ :=
      ih (i + 1) acc1 (fun r hr => h r (List.mem_cons_of_mem _ hr))
    refine ⟨acc2, m :: rows, ?_, ?_, ?_, ?_⟩
    · simp only [mainLoop, h1, h2]
    · rw [hmet2, hmet]; simp
    · simp [hm, hit, List.range'_succ]
    · rw [hlat2, hlat]; simp

theorem foldl_warmStep_count (l : List iterMetric) (w : Warm) :
    (l.foldl warmStep w).warmCount = w.warmCount + l.length := by
  induction l generalizing w with
  | nil => simp
  | cons m rest ih =>
    rw [List.foldl_cons, ih]
    simp only [warmStep, List.length_cons]
    push_cast
    omega

/-- C11, counterexample: a single run whose response has status SUCCEEDED
but no execution identifier aborts the test; no Metric Row is collected. -/
theorem mainLoop_succeeded_without_arn_counterexample :
    (∃ resp, succeededWithoutArn.call = .ok resp ∧ resp.Status = "SUCCEEDED") ∧
    mainLoop (fun _ => {}) 1 [succeededWithoutArn] 0 {} =
      .error "api missing executionArn [1/1]" :=
  ⟨⟨_, rfl, rfl⟩, rfl⟩

/-- C11, amended: for every N >= 1 runs that all return without error, reach
SUCCEEDED and carry an execution identifier, the measuring loop collects
exactly N Metric Rows with iterations 1..N in order; the cold sample is the
first row, the only one with iteration 1; the warm group is the N-1 remaining
rows with iterations 2..N, `warmCount = N - 1`; and the averaging denominator
of the all group, `len(latenciesMs)`, is N. -/
theorem mainLoop_cold_warm_partition (decode : String → execOutput) (runs : List Run)
    (hN : 1 ≤ runs.length)
    (hok : ∀ run, run ∈ runs →
      ∃ resp, run.call = .ok resp ∧ resp.Status = "SUCCEEDED" ∧ resp.ExecutionArn ≠ "") :
    ∃ acc cold warm, mainLoop decode runs.length runs 0 {} = .ok acc ∧
      acc.metrics = cold :: warm ∧
      acc.metrics.length = runs.length ∧
      acc.metrics.map (fun m => m.Iter) = List.map (fun j : Nat => (j : Int) + 1) (List.range runs.length) ∧
      coldRows acc.metrics = [metricCells cold] ∧
      cold.Iter = 1 ∧
      (∀ m, m ∈ warm → m.Iter ≠ 1) ∧
      acc.metrics.drop 1 = warm ∧
      warm.length = runs.length - 1 ∧
      warm.map (fun m => m.Iter) = List.map (fun j : Nat => (j : Int) + 2) (List.range (runs.length - 1)) ∧
      (warmStats acc.metrics).warmCount = ((runs.length - 1 : Nat) : Int) ∧
      acc.latenciesMs.length = runs.length := by
  obtain ⟨acc, rows, h, hmet, hit, hlat⟩ := mainLoop_ok decode runs.length runs 0 {} hok
  simp only [List.nil_append] at hmet hlat
  obtain ⟨n, hn⟩ : ∃ n, runs.length = n + 1 := ⟨runs.length - 1, by omega⟩
  have hlen : rows.length = n + 1 := by
    have := congrArg List.length hit
    rw [List.length_map, List.length_map, List.length_range', hn] at this
    exact this
  cases rows with
  | nil => simp at hlen
  | cons cold warm =>
    rw [hn, List.range'_succ] at hit
    simp only [List.map_cons, List.cons.injEq] at hit
    have hc := hit.1
    have hw := hit.2
    have hw2 : warm.map (fun m => m.Iter) = List.map (fun j : Nat => (j : Int) + 2) (List.range n) := by
      rw [hw, List.range'_eq_map_range]
      simp only [List.map_map]
      apply List.map_congr_left
      intro j _
      simp only [Function.comp]
      push_cast
      omega
    have hwl : warm.length = n := by simpa using hlen
    refine ⟨acc, cold, warm, h, hmet, ?_, ?_, ?_, ?_, ?_, ?_, ?_, ?_, ?_, ?_⟩
    · rw [hmet, hn]; simpa using hwl
    · rw [hmet, hn, List.map_cons, hc, hw2, List.range_succ_eq_map]
      simp only [List.map_cons, List.map_map, List.cons.injEq]
      refine ⟨by simp, ?_⟩
      apply List.map_congr_left
      intro j _
      simp only [Function.comp]
      push_cast
      omega
    · rw [hmet]; rfl
    · simpa using hc
    · intro m hm h1
      have : m.Iter ∈ warm.map (fun m => m.Iter) := List.mem_map_of_mem _ hm
      rw [hw2, List.mem_map] at this
      obtain ⟨j, _, hj⟩ := this
      omega
    · rw [hmet]; rfl
    · rw [hn]; simpa using hwl
    · rw [hn]; simpa using hw2
    · rw [hmet, hn]
      simp only [warmStats, List.drop_succ_cons, List.drop_zero, foldl_warmStep_count, hwl]
      simp
    · rw [hlat, hn]; simpa using hwl

/-- Witness for C11: three runs that reach SUCCEEDED. -/
theorem mainLoop_cold_warm_partition_witness :
    ∃ acc cold warm,
      mainLoop (fun _ => {}) 3 [succeededRun 120, succeededRun 80, succeededRun 90] 0 {} = .ok acc ∧
      acc.metrics = cold :: warm ∧
      acc.metrics.length = 3 ∧
      acc.metrics.map (fun m => m.Iter) = List.map (fun j : Nat => (j : Int) + 1) (List.range 3) ∧
      coldRows acc.metrics = [metricCells cold] ∧
      cold.Iter = 1 ∧
      (∀ m, m ∈ warm → m.Iter ≠ 1) ∧
      acc.metrics.drop 1 = warm ∧
      warm.length = 2 ∧
      warm.map (fun m => m.Iter) = List.map (fun j : Nat => (j : Int) + 2) (List.range 2) ∧
      (warmStats acc.metrics).warmCount = 2 ∧
      acc.latenciesMs.length = 3 :=
  mainLoop_cold_warm_partition (fun _ => {}) [succeededRun 120, succeededRun 80, succeededRun 90]
    (by decide)
    (fun run hr => by
      simp only [List.mem_cons, List.mem_singleton, List.not_mem_nil, or_false] at hr
      rcases hr with h | h | h <;> subst h <;> exact ⟨_, rfl, rfl, by decide⟩)

theorem iteration_metrics (decode : String → execOutput) (repeatN i : Nat) (acc acc2 : Acc)
    (run : Run) (h : iteration decode repeatN i acc run = .ok acc2) :
    acc2.metrics.length = acc.metrics.length + 1 := by
  unfold iteration at h
  cases hc : run.call with
  | error e => rw [hc] at h; simp at h
  | ok resp =>
    rw [hc] at h
    simp only at h
    by_cases hs : resp.Status ≠ "SUCCEEDED"
    · rw [if_pos hs] at h; simp at h
    · rw [if_neg hs] at h
      by_cases ha : resp.ExecutionArn = ""
      · rw [if_pos ha] at h; simp at h
      · rw [if_neg ha] at h
        rw [← Except.ok.inj h]
        exact List.length_append _ _

theorem mainLoop_length (decode : String → execOutput) (repeatN : Nat) :
    ∀ (runs : List Run) (i : Nat) (acc acc2 : Acc),
      mainLoop decode repeatN runs i acc = .ok acc2 →
      acc2.metrics.length = acc.metrics.length + runs.length := by
  intro runs
  induction runs with
  | nil =>
    intro i acc acc2 h
    have := Except.ok.inj h
    subst this
    simp
  | cons run rest ih =>
    intro i acc acc2 h
    rw [mainLoop] at h
    cases h1 : iteration decode repeatN i acc run with
    | error e => rw [h1] at h; simp at h
    | ok acc1 =>
      rw [h1] at h
      have := ih (i + 1) acc1 acc2 h
      rw [this, iteration_metrics decode repeatN i acc acc1 run h1, List.length_cons]
      omega

theorem wrap64_add_wrap64 (a t : Int) : wrap64 (wrap64 a + t) = wrap64 (a + t) := by
  unfold wrap64
  omega

/-- One more row: the accumulators updated as the loops do it (the first row
initialises the minimum and maximum, later rows are compared) describe the
rows including the new one. -/
theorem statsOf_snoc (f : iterMetric → Int) (mn mx sm : Int) (rows : List iterMetric)
    (m : iterMetric) (first : Prop) [Decidable first] (hfirst : first ↔ rows = [])
    (h : StatsOf f mn mx sm rows) :
    StatsOf f (if first then f m else if f m < mn then f m else mn)
      (if first then f m else if f m > mx then f m else mx)
      (wrap64 (sm + f m)) (rows ++ [m]) := by
  obtain ⟨hs, _, hmm⟩ := h
  have hsum : wrap64 (sm + f m) = wrap64 ((rows ++ [m]).map f).sum := by
    rw [hs, wrap64_add_wrap64, List.map_append, List.sum_append]
    simp
  refine ⟨hsum, fun hi => by rw [hsum, wrap64_of_isInt64 hi], fun _ => ?_⟩
  · by_cases hr : rows = []
    · have hf : first := hfirst.mpr hr
      subst hr
      simp [hf]
    · have hf : ¬ first := fun hf => hr (hfirst.mp hf)
      obtain ⟨⟨hmn, hmnle⟩, ⟨hmx, hmxle⟩⟩ := hmm hr
      simp only [hf, if_false, List.map_append, List.map_cons, List.map_nil, List.mem_append,
        List.mem_singleton]
      refine ⟨⟨?_, ?_⟩, ⟨?_, ?_⟩⟩
      · split_ifs
        · exact Or.inr rfl
        · exact Or.inl hmn
      · intro y hy
        rcases hy with hy | hy
        · have := hmnle y hy
          split_ifs <;> omega
        · subst hy
          split_ifs <;> omega
      · split_ifs
        · exact Or.inr rfl
        · exact Or.inl hmx
      · intro y hy
        rcases hy with hy | hy
        · have := hmxle y hy
          split_ifs <;> omega
        · subst hy
          split_ifs <;> omega

theorem statsOf_nil (f : iterMetric → Int) (mn mx : Int) : StatsOf f mn mx 0 [] :=
  ⟨rfl, fun _ => rfl, fun h => absurd rfl h⟩

theorem ite_or_eq (a b : Prop) [Decidable a] [Decidable b] (x y : Int) :
    (if a ∨ b then x else y) = if a then x else if b then x else y := by
  by_cases ha : a <;> by_cases hb : b <;> simp [ha, hb]

theorem iteration_allStats (decode : String → execOutput) (repeatN i : Nat) (acc acc2 : Acc)
    (run : Run) (h : iteration decode repeatN i acc run = .ok acc2)
    (hlen : acc.metrics.length = i) (hinv : AllStats acc) :
    AllStats acc2 := by
  have hfirst : i = 0 ↔ acc.metrics = [] := by rw [← hlen]; exact List.length_eq_zero
  obtain ⟨h1, h2, h3, h4, h5, h6⟩ := hinv
  unfold iteration at h
  cases hc : run.call with
  | error e => rw [hc] at h; simp at h
  | ok resp =>
    rw [hc] at h
    simp only at h
    by_cases hs : resp.Status ≠ "SUCCEEDED"
    · rw [if_pos hs] at h; simp at h
    · rw [if_neg hs] at h
      by_cases ha : resp.ExecutionArn = ""
      · rw [if_pos ha] at h; simp at h
      · rw [if_neg ha] at h
        rw [← Except.ok.inj h]
        refine ⟨?_, ?_, ?_, ?_, ?_, ?_⟩
        · dsimp only
          rw [ite_or_eq, ite_or_eq]
          exact statsOf_snoc _ _ _ _ _ _ (i = 0) hfirst h1
        · exact statsOf_snoc _ _ _ _ _ _ (i = 0) hfirst h2
        · exact statsOf_snoc _ _ _ _ _ _ (i = 0) hfirst h3
        · exact statsOf_snoc _ _ _ _ _ _ (i = 0) hfirst h4
        · exact statsOf_snoc _ _ _ _ _ _ (i = 0) hfirst h5
        · show (acc.latenciesMs ++ [_]).length = (acc.metrics ++ [_]).length
          rw [List.length_append, List.length_append, h6]
          rfl

theorem mainLoop_allStats (decode : String → execOutput) (repeatN : Nat) :
    ∀ (runs : List Run) (i : Nat) (acc acc2 : Acc),
      mainLoop decode repeatN runs i acc = .ok acc2 →
      acc.metrics.length = i → AllStats acc → AllStats acc2 := by
  intro runs
  induction runs with
  | nil =>
    intro i acc acc2 h _ hinv
    rw [← Except.ok.inj h]
    exact hinv
  | cons run rest ih =>
    intro i acc acc2 h hlen hinv
    rw [mainLoop] at h
    cases h1 : iteration decode repeatN i acc run with
    | error e => rw [h1] at h; simp at h
    | ok acc1 =>
      rw [h1] at h
      exact ih (i + 1) acc1 acc2 h
        (by rw [iteration_metrics decode repeatN i acc acc1 run h1, hlen])
        (iteration_allStats decode repeatN i acc acc1 run h1 hlen hinv)

theorem warmStep_warmStats (w : Warm) (done : List iterMetric) (m : iterMetric)
    (h : WarmStats w done) : WarmStats (warmStep w m) (done ++ [m]) := by
  obtain ⟨h1, h2, h3, h4, h5, h6⟩ := h
  have hfirst : ((w.warmCount + 1 == 1) = true) ↔ done = [] := by
    rw [h6, beq_iff_eq, ← List.length_eq_zero]
    omega
  refine ⟨?_, ?_, ?_, ?_, ?_, ?_⟩
  · exact statsOf_snoc _ _ _ _ _ _ _ hfirst h1
  · exact statsOf_snoc _ _ _ _ _ _ _ hfirst h2
  · exact statsOf_snoc _ _ _ _ _ _ _ hfirst h3
  · exact statsOf_snoc _ _ _ _ _ _ _ hfirst h4
  · exact statsOf_snoc _ _ _ _ _ _ _ hfirst h5
  · show w.warmCount + 1 = ((done ++ [m]).length : Int)
    rw [h6, List.length_append]
    simp

theorem foldl_warmStep_warmStats (l : List iterMetric) :
    ∀ (w : Warm) (done : List iterMetric), WarmStats w done →
      WarmStats (l.foldl warmStep w) (done ++ l) := by
  induction l with
  | nil => intro w done h; simpa using h
  | cons m rest ih =>
    intro w done h
    have := ih (warmStep w m) (done ++ [m]) (warmStep_warmStats w done m h)
    simpa using this

/-- C12, counterexample: two rows with a total of 2^62 ms each. The sum of the
totals is 2^63, but the all-group accumulator `sumMs`, the numerator of the
average, has wrapped around to -2^63. -/
theorem aggregate_sum_overflow_counterexample :
    ∃ acc, mainLoop (fun _ => {}) 2 hugeTotalRuns 0 {} = .ok acc ∧
      acc.metrics.map (fun m => m.TotalMs) = [4611686018427387904, 4611686018427387904] ∧
      (acc.metrics.map (fun m => m.TotalMs)).sum = 9223372036854775808 ∧
      acc.sumMs = -9223372036854775808 ∧
      (allRows sampleFmtAvg acc).head? =
        some ["avg", sampleFmtAvg (-9223372036854775808) 2, sampleFmtAvg 0 2, sampleFmtAvg 0 2,
              sampleFmtAvg 0 2, sampleFmtAvg (-9223372036854775808) 2] :=
  ⟨_, rfl, by decide, by decide, by decide, by decide⟩

/-- C12, amended: for the rows the measuring loop has collected, the all-group
minimum and maximum of the total and of each segment are the least and the
greatest value of that field over all rows, and the warm-group minimum and
maximum are the least and the greatest value over the rows 2..N (whenever
there are any). Each group's average is rendered from the floating-point
quotient of the group's 64-bit sum of the field and the group's count; the
64-bit sum is the exact sum of the field over the group's rows whenever that
sum fits in 64 bits. -/
theorem aggregate_statistics (decode : String → execOutput) (fmtAvg : Int → Int → String)
    (runs : List Run) (acc : Acc)
    (h : mainLoop decode runs.length runs 0 {} = .ok acc) :
    acc.metrics.length = runs.length ∧
    AllStats acc ∧
    WarmStats (warmStats acc.metrics) (acc.metrics.drop 1) ∧
    (allRows fmtAvg acc).head? =
      some ["avg", fmtAvg acc.sumMs runs.length, fmtAvg acc.sumSendMs runs.length,
            fmtAvg acc.sumSqsWaitMs runs.length, fmtAvg acc.sumWorkerMs runs.length,
            fmtAvg acc.sumOverheadMs runs.length] ∧
    (2 ≤ runs.length →
      (summaryRows fmtAvg (warmStats acc.metrics)).head? =
        some ["avg", fmtAvg (warmStats acc.metrics).warmSumTotal ((runs.length - 1 : Nat) : Int),
              fmtAvg (warmStats acc.metrics).warmSumSend ((runs.length - 1 : Nat) : Int),
              fmtAvg (warmStats acc.metrics).warmSumWait ((runs.length - 1 : Nat) : Int),
              fmtAvg (warmStats acc.metrics).warmSumWorker ((runs.length - 1 : Nat) : Int),
              fmtAvg (warmStats acc.metrics).warmSumOverhead ((runs.length - 1 : Nat) : Int)]) := by
  have hlen : acc.metrics.length = runs.length := by
    have := mainLoop_length decode runs.length runs 0 {} acc h
    simpa using this
  have hall : AllStats acc :=
    mainLoop_allStats decode runs.length runs 0 {} acc h rfl
      ⟨statsOf_nil _ _ _, statsOf_nil _ _ _, statsOf_nil _ _ _, statsOf_nil _ _ _,
        statsOf_nil _ _ _, rfl⟩
  have hwarm : WarmStats (warmStats acc.metrics) (acc.metrics.drop 1) := by
    have := foldl_warmStep_warmStats (acc.metrics.drop 1) {} []
      ⟨statsOf_nil _ _ _, statsOf_nil _ _ _, statsOf_nil _ _ _, statsOf_nil _ _ _,
        statsOf_nil _ _ _, rfl⟩
    simpa [warmStats] using this
  have hcount : (warmStats acc.metrics).warmCount = ((runs.length - 1 : Nat) : Int) := by
    rw [hwarm.2.2.2.2.2, List.length_drop, hlen]
  refine ⟨hlen, hall, hwarm, ?_, ?_⟩
  · simp only [allRows, hall.2.2.2.2.2, hlen, List.head?_cons]
  · intro h2
    have hpos : (warmStats acc.metrics).warmCount > 0 := by
      rw [hcount]
      have : 1 ≤ runs.length - 1 := by omega
      exact_mod_cast this
    rw [summaryRows, if_pos hpos, hcount]
    rfl

/-- Witness for C12: three runs with totals 120, 80 and 90 ms. -/
theorem aggregate_statistics_witness :
    ∃ acc, mainLoop (fun _ => {}) 3 [succeededRun 120, succeededRun 80, succeededRun 90] 0 {}
        = .ok acc ∧
      acc.metrics.length = 3 ∧
      AllStats acc ∧
      WarmStats (warmStats acc.metrics) (acc.metrics.drop 1) ∧
      acc.minMs = 80 ∧ acc.maxMs = 120 ∧ acc.sumMs = 290 ∧
      (warmStats acc.metrics).warmMinTotal = 80 ∧ (warmStats acc.metrics).warmMaxTotal = 90 ∧
      (warmStats acc.metrics).warmSumTotal = 170 :=
  ⟨_, rfl,
    (aggregate_statistics (fun _ => {}) sampleFmtAvg
      [succeededRun 120, succeededRun 80, succeededRun 90] _ rfl).1,
    (aggregate_statistics (fun _ => {}) sampleFmtAvg
      [succeededRun 120, succeededRun 80, succeededRun 90] _ rfl).2.1,
    (aggregate_statistics (fun _ => {}) sampleFmtAvg
      [succeededRun 120, succeededRun 80, succeededRun 90] _ rfl).2.2.1,
    by decide, by decide, by decide, by decide, by decide, by decide⟩

theorem len_append (a b : String) : len (a ++ b) = len a + len b := by
  cases a with
  | mk x =>
    cases b with
    | mk y =>
      show String.utf8ByteSize (String.mk (x ++ y)) = _
      simp [len, String.utf8ByteSize_mk, String.utf8Len_append]

theorem len_repeat_blank (n : Nat) : len (repeatChar ' ' n) = n := by
  induction n with
  | zero => rfl
  | succ k ih =>
    simp only [len, repeatChar, String.utf8ByteSize_mk, List.replicate_succ,
      String.utf8Len_cons] at ih ⊢
    rw [ih]
    rfl

theorem len_repeat_dash (n : Nat) : len (repeatChar '-' n) = n := by
  induction n with
  | zero => rfl
  | succ k ih =>
    simp only [len, repeatChar, String.utf8ByteSize_mk, List.replicate_succ,
      String.utf8Len_cons] at ih ⊢
    rw [ih]
    rfl

/-- `padCell` widens a text to the width with blanks and never shortens it. -/
theorem len_padCell (s : String) (width : Nat) (right : Bool) :
    len (padCell s width right) = max (len s) width := by
  simp only [padCell]
  split_ifs with h h2
  · omega
  · rw [len_append, len_repeat_blank]; omega
  · rw [len_append, len_repeat_blank]; omega

theorem len_padCell_of_le (s : String) (width : Nat) (right : Bool) (h : len s ≤ width) :
    len (padCell s width right) = width := by
  rw [len_padCell]
  omega

theorem widenRow_length (ws : List Nat) (cs : List String) :
    (widenRow ws cs).length = ws.length := by
  induction ws generalizing cs with
  | nil => cases cs <;> rfl
  | cons w ws ih => cases cs with
    | nil => rfl
    | cons c cs => simp [widenRow, ih]

theorem columnWidths_length (headers : List String) (rows : List (List String)) :
    (columnWidths headers rows).length = headers.length := by
  unfold columnWidths
  generalize hw : headers.map len = ws
  have hl : ws.length = headers.length := by rw [← hw, List.length_map]
  clear hw
  induction rows generalizing ws with
  | nil => exact hl
  | cons r rest ih => exact ih _ (by rw [widenRow_length, hl])

theorem widenRow_getD (ws : List Nat) (cs : List String) (i : Nat) (h : i < ws.length) :
    (widenRow ws cs).getD i 0 = max (ws.getD i 0) (len (cs.getD i "")) := by
  induction ws generalizing cs i with
  | nil => simp at h
  | cons w ws ih =>
    cases cs with
    | nil =>
      have h0 : len "" = 0 := rfl
      simp [widenRow, h0]
    | cons c cs =>
      cases i with
      | zero =>
        simp only [widenRow, List.getD_cons_zero]
        split_ifs <;> omega
      | succ j =>
        simp only [widenRow, List.getD_cons_succ]
        exact ih cs j (by simpa using h)

/-- After the width loop every width is at least its starting value and at
least the length of the cell of every row in that column, and it is one of
these lengths. -/
theorem foldl_widenRow_getD (rows : List (List String)) (ws : List Nat) (i : Nat)
    (h : i < ws.length) :
    ws.getD i 0 ≤ (rows.foldl widenRow ws).getD i 0 ∧
    (∀ r, r ∈ rows → len (r.getD i "") ≤ (rows.foldl widenRow ws).getD i 0) ∧
    ((rows.foldl widenRow ws).getD i 0 = ws.getD i 0 ∨
      ∃ r, r ∈ rows ∧ (rows.foldl widenRow ws).getD i 0 = len (r.getD i "")) := by
  induction rows generalizing ws with
  | nil => simp
  | cons r rest ih =>
    have hl : i < (widenRow ws r).length := by rw [widenRow_length]; exact h
    obtain ⟨a, b, c⟩ := ih (widenRow ws r) hl
    have hw := widenRow_getD ws r i h
    rw [List.foldl_cons]
    refine ⟨by omega, ?_, ?_⟩
    · intro r2 hr2
      rcases List.mem_cons.mp hr2 with h1 | h1
      · subst h1; omega
      · exact b r2 h1
    · rcases c with c | ⟨r2, hr2, c⟩
      · rcases Nat.le_total (ws.getD i 0) (len (r.getD i "")) with hle | hle
        · right
          exact ⟨r, List.mem_cons_self _ _, by rw [c, hw]; omega⟩
        · left
          rw [c, hw]; omega
      · right
        exact ⟨r2, List.mem_cons_of_mem _ hr2, c⟩

theorem map_len_getD (headers : List String) (i : Nat) (h : i < headers.length) :
    (headers.map len).getD i 0 = len (headers.getD i "") := by
  induction headers generalizing i with
  | nil => simp at h
  | cons x xs ih =>
    cases i with
    | zero => simp
    | succ j => simpa using ih j (by simpa using h)

theorem len_rowCells (cs : List String) (ws : List Nat) (rs : List Bool)
    (hfit : ∀ i, i < ws.length → len (cs.getD i "") ≤ ws.getD i 0)
    (hrs : ws.length ≤ rs.length) :
    len (rowCells cs ws rs) = cellsLength ws := by
  induction ws generalizing cs rs with
  | nil => cases rs <;> rfl
  | cons w ws ih =>
    cases rs with
    | nil => simp at hrs
    | cons r rs =>
      have h0 : len (cs.headD "") ≤ w := by
        have := hfit 0 (by simp)
        cases cs <;> simpa using this
      have ht : ∀ i, i < ws.length → len (cs.tail.getD i "") ≤ ws.getD i 0 := by
        intro i hi
        have := hfit (i + 1) (by simpa using hi)
        cases cs with
        | nil => simpa using this
        | cons c cs => simpa using this
      have hb : len " " = 1 := rfl
      have hbar : len " |" = 2 := rfl
      simp only [rowCells, len_append, len_padCell_of_le _ _ _ h0, hb, hbar,
        ih cs.tail rs ht (by simpa using hrs), cellsLength, List.map_cons, List.sum_cons]
      omega

theorem headerCells_eq_rowCells (hs : List String) (ws : List Nat) (rs : List Bool)
    (h : hs.length = ws.length) : headerCells hs ws rs = rowCells hs ws rs := by
  induction hs generalizing ws rs with
  | nil =>
    cases ws with
    | nil => cases rs <;> rfl
    | cons w ws => simp at h
  | cons x xs ih =>
    cases ws with
    | nil => simp at h
    | cons w ws =>
      cases rs with
      | nil => rfl
      | cons r rs =>
        simp only [headerCells, rowCells, List.headD_cons, List.tail_cons]
        rw [ih ws rs (by simpa using h)]

theorem len_separatorCells (ws : List Nat) (rs : List Bool) (hrs : ws.length ≤ rs.length) :
    len (separatorCells ws rs) = (ws.map (fun w => max w 3 + 3)).sum := by
  induction ws generalizing rs with
  | nil => cases rs <;> rfl
  | cons w ws ih =>
    cases rs with
    | nil => simp at hrs
    | cons r rs =>
      have hb : len " " = 1 := rfl
      have hbar : len " |" = 2 := rfl
      have hc : len ":" = 1 := rfl
      simp only [separatorCells, len_append, ih rs (by simpa using hrs), List.map_cons,
        List.sum_cons]
      cases r <;> simp only [if_true, if_false, len_append, len_repeat_dash, hb, hbar, hc,
        Bool.false_eq_true] <;> split_ifs <;> omega

/-- C14, counterexample: for the one-column table with header "a" and the
row "1" the column is 1 byte wide in the header and data lines, but the
separator line gives it 3 bytes: the lines are 5, 7 and 5 bytes long. -/
theorem formatMarkdownTable_narrow_column_counterexample :
    formatMarkdownTable ["a"] [true] [["1"]] = some "| a |\n| --: |\n| 1 |\n" ∧
    columnWidths ["a"] [["1"]] = [1] ∧
    len (headerLine ["a"] [true] [["1"]]) = 5 ∧
    len (separatorLine ["a"] [true] [["1"]]) = 7 ∧
    len (rowLine ["a"] [true] [["1"]] ["1"]) = 5 := by
  decide

/-- C14, amended: for headers, alignments of the same length and rows,
`formatMarkdownTable` returns the header line, the separator line and one line
per row. The width of a column is the byte length of the widest of its header
and its cells (a missing cell counting as empty); in the header line and in
every data line each column occupies exactly that width, in the separator line
it occupies the larger of that width and 3. So the header and data lines all
have the same length, and the separator line has it too when every column is
at least 3 bytes wide. `padCell` pads a shorter text to the width, on the left
for right-aligned and on the right for left-aligned columns, and leaves other
texts unchanged. -/
theorem formatMarkdownTable_fixed_width (headers : List String) (rightAlign : List Bool)
    (rows : List (List String)) (hlen : rightAlign.length = headers.length) :
    formatMarkdownTable headers rightAlign rows =
      some (headerLine headers rightAlign rows ++ "\n" ++
        separatorLine headers rightAlign rows ++ "\n" ++
        String.join (rows.map (fun r => rowLine headers rightAlign rows r ++ "\n"))) ∧
    (columnWidths headers rows).length = headers.length ∧
    (∀ i, i < headers.length →
      len (headers.getD i "") ≤ (columnWidths headers rows).getD i 0 ∧
      (∀ r, r ∈ rows → len (r.getD i "") ≤ (columnWidths headers rows).getD i 0) ∧
      ((columnWidths headers rows).getD i 0 = len (headers.getD i "") ∨
        ∃ r, r ∈ rows ∧ (columnWidths headers rows).getD i 0 = len (r.getD i ""))) ∧
    len (headerLine headers rightAlign rows) = 1 + cellsLength (columnWidths headers rows) ∧
    (∀ r, r ∈ rows →
      len (rowLine headers rightAlign rows r) = 1 + cellsLength (columnWidths headers rows)) ∧
    len (separatorLine headers rightAlign rows) =
      1 + ((columnWidths headers rows).map (fun w => max w 3 + 3)).sum ∧
    ((∀ w, w ∈ columnWidths headers rows → 3 ≤ w) →
      len (separatorLine headers rightAlign rows) = len (headerLine headers rightAlign rows)) ∧
    (∀ (s : String) (width : Nat) (right : Bool),
      len (padCell s width right) = max (len s) width ∧
      (width ≤ len s → padCell s width right = s) ∧
      (len s < width → padCell s width right =
        if right then repeatChar ' ' (width - len s) ++ s
        else s ++ repeatChar ' ' (width - len s))) := by
  have hwl := columnWidths_length headers rows
  have hspec : ∀ i, i < headers.length →
      len (headers.getD i "") ≤ (columnWidths headers rows).getD i 0 ∧
      (∀ r, r ∈ rows → len (r.getD i "") ≤ (columnWidths headers rows).getD i 0) ∧
      ((columnWidths headers rows).getD i 0 = len (headers.getD i "") ∨
        ∃ r, r ∈ rows ∧ (columnWidths headers rows).getD i 0 = len (r.getD i "")) := by
    intro i hi
    have h := foldl_widenRow_getD rows (headers.map len) i (by simpa using hi)
    rw [map_len_getD headers i hi] at h
    exact h
  have hbar : len "|" = 1 := rfl
  have hrs : (columnWidths headers rows).length ≤ rightAlign.length := by omega
  have hhead : len (headerLine headers rightAlign rows)
      = 1 + cellsLength (columnWidths headers rows) := by
    rw [headerLine, len_append, hbar, headerCells_eq_rowCells _ _ _ hwl.symm,
      len_rowCells _ _ _ (fun i hi => (hspec i (by omega)).1) hrs]
  have hsep : len (separatorLine headers rightAlign rows) =
      1 + ((columnWidths headers rows).map (fun w => max w 3 + 3)).sum := by
    rw [separatorLine, len_append, hbar, len_separatorCells _ _ hrs]
  refine ⟨?_, hwl, hspec, hhead, ?_, hsep, ?_, ?_⟩
  · simp only [formatMarkdownTable, hlen, Nat.lt_irrefl, if_false]
  · intro r hr
    rw [rowLine, len_append, hbar,
      len_rowCells _ _ _ (fun i hi => (hspec i (by omega)).2.1 r hr) hrs]
  · intro h3
    rw [hsep, hhead, cellsLength]
    congr 2
    apply List.map_congr_left
    intro w hw
    have := h3 w hw
    omega
  · intro s width right
    refine ⟨len_padCell s width right, ?_, ?_⟩
    · intro h
      simp only [padCell, ge_iff_le, h, if_true]
    · intro h
      have : ¬ len s ≥ width := by omega
      simp only [padCell, this, if_false]

/-- Witness for C14: the first two columns of the warm summary table of a
single run. -/
theorem formatMarkdownTable_fixed_width_witness :
    formatMarkdownTable ["metric", "totalMs"] [false, true] [["warm", "n/a"]] =
      some "| metric | totalMs |\n| ------ | ------: |\n| warm   |     n/a |\n" :=
  (formatMarkdownTable_fixed_width ["metric", "totalMs"] [false, true] [["warm", "n/a"]]
    rfl).1.trans (by decide)

end Harness

/-- A text that ends with the decimal rendering of a natural number never is
the marker text "n/a". -/
theorem append_toString_nat_ne_na (s : String) (n : Nat) : s ++ toString n ≠ "n/a" := by
  intro h
  obtain ⟨pre, hp⟩ := natRepr_getLast n
  have h2 : (s ++ toString n).data = ['n', '/', 'a'] := by rw [h]
  have h3 : (toString n).data = pre ++ [Nat.digitChar (n % 10)] := hp
  rw [String.data_append, h3, ← List.append_assoc] at h2
  have hl := congrArg List.getLast? h2
  simp at hl
  exact digitChar_mod_ten_ne_a n hl

namespace Harness

/-- The `%.3f` rendering of a quotient of two 64-bit integers never is the
marker text "n/a". -/
theorem sprintfAvg_ne_na (s c : Int) : sprintfAvg s c ≠ "n/a" := by
  unfold sprintfAvg
  split_ifs
  · decide
  · decide
  · decide
  · exact append_toString_nat_ne_na _ _

/-- An iteration that does not abort the test appends the Metric Row computed
from the response and the wall-clock duration of its run. -/
theorem iteration_row (decode : String → execOutput) (repeatN i : Nat) (acc acc2 : Acc)
    (run : Run) (h : iteration decode repeatN i acc run = .ok acc2) :
    ∃ resp, run.call = .ok resp ∧ resp.Status = "SUCCEEDED" ∧ resp.ExecutionArn ≠ "" ∧
      acc2.metrics = acc.metrics ++
        [decompose i resp.TotalMs run.wall
          (if resp.Output ≠ "" then decode resp.Output else {})] := by
  unfold iteration at h
  cases hc : run.call with
  | error e => rw [hc] at h; simp at h
  | ok resp =>
    rw [hc] at h
    simp only at h
    by_cases hs : resp.Status ≠ "SUCCEEDED"
    · rw [if_pos hs] at h; simp at h
    · rw [if_neg hs] at h
      by_cases ha : resp.ExecutionArn = ""
      · rw [if_pos ha] at h; simp at h
      · rw [if_neg ha] at h
        rw [← Except.ok.inj h]
        exact ⟨resp, rfl, not_not.mp hs, ha, rfl⟩

/-- C13: whenever the report is rendered for N runs: when N = 1 the warm
group is empty, the warm summary is the single row "warm" with "n/a" in every
statistic column, and the single row of the cold table is the `%d` rendering,
field by field, of the single run's Metric Row (iteration 1, the total, the
three segments, the residual, the wall-clock and the reported milliseconds);
when N >= 2 the warm group has N - 1 rows, the warm summary has exactly the
three rows avg, min, max, of six cells each, and no cell is "n/a". -/
theorem report_warm_summary (decode : String → execOutput) (runs : List Run) (report : Report)
    (hrep : TestStepFunctionsFlowLatency decode sprintfAvg runs = .ok report) :
    ∃ acc, mainLoop decode runs.length runs 0 {} = .ok acc ∧
      acc.metrics.length = runs.length ∧
      (runs.length = 1 →
        (warmStats acc.metrics).warmCount = 0 ∧
        report.summaryRows = [["warm", "n/a", "n/a", "n/a", "n/a", "n/a"]] ∧
        ∃ run resp m, runs = [run] ∧ run.call = .ok resp ∧
          m = decompose 0 resp.TotalMs run.wall
                (if resp.Output ≠ "" then decode resp.Output else {}) ∧
          acc.metrics = [m] ∧
          m.Iter = 1 ∧
          report.coldRows =
            [[toString m.Iter, toString m.TotalMs, toString m.SendToSqsMs,
              toString m.SqsWaitMs, toString m.WorkerMs, toString m.OverheadMs,
              toString m.WallMs, toString m.ApiLambdaMs]] ∧
          report.breakdownRows = report.coldRows) ∧
      (2 ≤ runs.length →
        (warmStats acc.metrics).warmCount = ((runs.length - 1 : Nat) : Int) ∧
        report.summaryRows.length = 3 ∧
        report.summaryRows.map List.head? = [some "avg", some "min", some "max"] ∧
        ∀ row, row ∈ report.summaryRows →
          row.length = 6 ∧ ∀ cell, cell ∈ row → cell ≠ "n/a") := by
  unfold TestStepFunctionsFlowLatency at hrep
  cases h : mainLoop decode runs.length runs 0 {} with
  | error e => rw [h] at hrep; simp at hrep
  | ok acc =>
    rw [h] at hrep
    have hr := (Except.ok.inj hrep).symm
    subst hr
    have hlen : acc.metrics.length = runs.length := by
      have := mainLoop_length decode runs.length runs 0 {} acc h
      simpa using this
    have hcount : (warmStats acc.metrics).warmCount = ((runs.length - 1 : Nat) : Int) := by
      rw [warmStats, foldl_warmStep_count, List.length_drop, hlen]
      simp
    refine ⟨acc, rfl, hlen, ?_, ?_⟩
    · intro h1
      have hc : (warmStats acc.metrics).warmCount = 0 := by
        rw [hcount, h1]; rfl
      refine ⟨hc, by simp [summaryRows, hc], ?_⟩
      obtain ⟨run, hrun⟩ : ∃ run, runs = [run] := List.length_eq_one.mp h1
      subst hrun
      rw [mainLoop] at h
      cases hi : iteration decode [run].length 0 {} run with
      | error e => rw [hi] at h; simp at h
      | ok acc1 =>
        rw [hi] at h
        simp only [mainLoop] at h
        have hacc := Except.ok.inj h
        subst hacc
        obtain ⟨resp, hcall, _, _, hmet⟩ := iteration_row decode _ 0 {} acc1 run hi
        have hmet2 : acc1.metrics =
            [decompose 0 resp.TotalMs run.wall
              (if resp.Output ≠ "" then decode resp.Output else {})] := by
          rw [hmet]; rfl
        refine ⟨run, resp, _, rfl, hcall, rfl, hmet2, rfl, ?_, ?_⟩
        · simp only [hmet2, coldRows, metricCells, fmtD]
        · simp only [hmet2, coldRows, List.map_cons, List.map_nil]
    · intro h2
      have hc : (warmStats acc.metrics).warmCount > 0 := by
        rw [hcount]
        have : 1 ≤ runs.length - 1 := by omega
        exact_mod_cast this
      simp only [summaryRows, hc, if_true]
      refine ⟨hcount, rfl, rfl, ?_⟩
      intro row hrow
      simp only [List.mem_cons, List.mem_singleton, List.not_mem_nil, or_false] at hrow
      rcases hrow with h | h | h <;> subst h <;> refine ⟨rfl, ?_⟩ <;> intro cell hcell <;>
        simp only [List.mem_cons, List.mem_singleton, List.not_mem_nil, or_false] at hcell <;>
        rcases hcell with h | h | h | h | h | h <;> subst h <;>
        first
          | exact sprintfAvg_ne_na _ _
          | exact toString_int_ne_na _
          | decide

set_option maxRecDepth 100000

/-- Witness for C13: the report of a single run (Scenario A), and the warm
summary of three runs with totals 120, 80 and 90 ms. -/
theorem report_warm_summary_witness :
    (∃ acc, mainLoop (fun _ => {}) 1 [succeededRun 120] 0 {} = .ok acc ∧
      acc.metrics = [{ Iter := 1, TotalMs := 120, OverheadMs := 120, WallMs := 123,
                       ApiLambdaMs := 120 }]) ∧
    TestStepFunctionsFlowLatency (fun _ => {}) sprintfAvg [succeededRun 120] =
      .ok { breakdownRows := [["1", "120", "0", "0", "0", "120", "123", "120"]]
            coldRows := [["1", "120", "0", "0", "0", "120", "123", "120"]]
            summaryRows := [["warm", "n/a", "n/a", "n/a", "n/a", "n/a"]]
            allRows := [["avg", "120.000", "0.000", "0.000", "0.000", "120.000"],
                        ["min", "120", "0", "0", "0", "120"],
                        ["max", "120", "0", "0", "0", "120"]] } ∧
    (∃ report, TestStepFunctionsFlowLatency (fun _ => {}) sprintfAvg
        [succeededRun 120, succeededRun 80, succeededRun 90] = .ok report ∧
      report.summaryRows = [["avg", "85.000", "0.000", "0.000", "0.000", "85.000"],
                            ["min", "80", "0", "0", "0", "80"],
                            ["max", "90", "0", "0", "0", "90"]] ∧
      ∀ row, row ∈ report.summaryRows →
        row.length = 6 ∧ ∀ cell, cell ∈ row → cell ≠ "n/a") := by
  refine ⟨?_, rfl, ?_⟩
  · obtain ⟨acc, h1, _, h3, _⟩ :=
      report_warm_summary (fun _ => {}) [succeededRun 120] _ rfl
    obtain ⟨_, _, run, resp, m, hruns, hcall, hm, hmet, _⟩ := h3 rfl
    refine ⟨acc, h1, ?_⟩
    have hrun : run = succeededRun 120 := (List.cons.inj hruns).1.symm
    subst hrun
    have hresp := Except.ok.inj hcall
    subst hresp
    rw [hmet, hm]
    decide
  · obtain ⟨acc, _, _, _, h4⟩ :=
      report_warm_summary (fun _ => {})
        [succeededRun 120, succeededRun 80, succeededRun 90] _ rfl
    exact ⟨_, rfl, by decide, (h4 (by decide)).2.2.2⟩

end Harness

end StepFn
